import Mathlib

/-!
# DrugAppSinglePage: ingestion scripts and the paginated drugs query

A shallow embedding of

* `backend/scripts/convert-data.js` (shape detection, field normalisation, validity filter),
* `backend/scripts/init-db.js` (the same pass, followed by the database load),
* `backend/server.js` (`GET /api/drugs`: paging arithmetic and the response envelope),
* `frontend/src/App.js` (the company filter and the params of the request for the drugs),

followed by the properties proved about them.

JavaScript values are modelled by `JSValue`.  A number is `NaN`, an infinity, or a finite
value held as a rational.  `toDouble` rounds a rational to the nearest double (ties to
even, overflow to an infinity); `parseInt`, the difference and the product round with it.
The quotient is kept exact: its only use is `Math.ceil(totalRecords / limitNum)` on a row
count, which is below `2^53`, where rounding the quotient does not change the ceiling.
-/

namespace DrugApp

/-! ## JavaScript values -/

/-- A JavaScript number: `NaN`, `Infinity`, `-Infinity` or a finite value.  `JSON.parse`
yields `Infinity` for a literal beyond the range of doubles, such as `1e999`. -/
inductive JSNum where
  | nan
  | posInf
  | negInf
  | fin (q : ℚ)
  deriving DecidableEq

/-- A JavaScript value as produced by `JSON.parse`, together with `undefined`
(the result of reading a property that is not there). -/
inductive JSValue where
  | undefined
  | null
  | bool (b : Bool)
  | num (x : JSNum)
  | str (s : String)
  | arr (items : List JSValue)
  | obj (props : List (String × JSValue))

/-- The exception raised by the language itself in the modelled code:
reading a property of `null` or `undefined`. -/
inductive JSError where
  | typeError
  deriving DecidableEq

/-- ToBoolean on numbers: `0` and `NaN` are falsy. -/
def JSNum.truthy : JSNum → Bool
  | .nan => false
  | .posInf => true
  | .negInf => true
  | .fin q => decide (q ≠ 0)

/-- The number of binary digits of `n`, by halving, with `fuel` halvings allowed. -/
def bitLengthAux : Nat → Nat → Nat
  | 0, _ => 0
  | fuel + 1, n => if n = 0 then 0 else bitLengthAux fuel (n / 2) + 1

/-- The number of binary digits of `n` (0 for 0): `n` halvings are more than enough. -/
def bitLength (n : Nat) : Nat :=
  bitLengthAux n n

/-- The integer nearest to `n / d`, a tie going to the even one. -/
def roundHalfEven (n d : Nat) : Nat :=
  if 2 * (n % d) < d then n / d
  else if d < 2 * (n % d) then n / d + 1
  else if (n / d) % 2 = 0 then n / d
  else n / d + 1

/-- An infinity by its sign. -/
def signedInf (negative : Bool) : JSNum :=
  if negative then .negInf else .posInf

/-- The double nearest to the rational `q`: the result of a JavaScript operation whose
exact value is `q`.  An integer of magnitude at most `2^53` is a double.  Otherwise, with
`top` the position of the leading bit of `|q|`, the value is cut to 53 significant bits (to
multiples of `2^-1074` for the smallest magnitudes), ties to even, and a result of
magnitude `2^1024` or more is an infinity. -/
def toDouble (q : ℚ) : JSNum :=
  if q.den = 1 ∧ q.num.natAbs ≤ 9007199254740992 then .fin q
  else
    let n := q.num.natAbs
    let d := q.den
    let c : Int := (bitLength n : Int) - (bitLength d : Int)
    let top : Int := if d * 2 ^ c.toNat ≤ n * 2 ^ (-c).toNat then c else c - 1
    let e : Int := max (top - 52) (-1074)
    let m : Nat := roundHalfEven (n * 2 ^ (-e).toNat) (d * 2 ^ e.toNat)
    if 2 ^ 1024 ≤ m * 2 ^ e.toNat then signedInf (decide (q < 0))
    else .fin ((if q < 0 then -1 else 1) * (m : ℚ) * 2 ^ e)

/-- ToBoolean. -/
def JSValue.truthy : JSValue → Bool
  | .undefined => false
  | .null => false
  | .bool b => b
  | .num x => x.truthy
  | .str s => decide (s ≠ "")
  | .arr _ => true
  | .obj _ => true

/-- The test `Array.isArray`. -/
def JSValue.isArray : JSValue → Bool
  | .arr _ => true
  | _ => false

/-- The elements of an array value (used only after `Array.isArray` succeeded). -/
def JSValue.items : JSValue → List JSValue
  | .arr xs => xs
  | _ => []

/-- The value read by `v.k` when `v` is neither `null` nor `undefined`.
An object is the list of its own properties, looked up by key.  For the keys the program
reads (the alias names, `drugs`, `data`) no primitive, array or prototype carries a
property, so every other kind of value reads as `undefined`. -/
def JSValue.prop (v : JSValue) (k : String) : JSValue :=
  match v with
  | .obj ps => (ps.lookup k).getD .undefined
  | _ => .undefined

/-- Property read `v.k`: a TypeError on `null` and `undefined`. -/
def getProp (v : JSValue) (k : String) : Except JSError JSValue :=
  match v with
  | .undefined => .error .typeError
  | .null => .error .typeError
  | _ => .ok (v.prop k)

/-- The operator `a || b`: `b` is evaluated only when `a` is falsy. -/
def jsOr (a : Except JSError JSValue) (b : Unit → Except JSError JSValue) :
    Except JSError JSValue :=
  match a with
  | .error e => .error e
  | .ok x => if x.truthy then .ok x else b ()

/-- The operator `a && b` on values already read. -/
def jsAnd (a b : JSValue) : JSValue :=
  if a.truthy then b else a

/-- The operator `!a`. -/
def jsNot (a : JSValue) : JSValue :=
  .bool (!a.truthy)

/-- The value of `JSON.stringify` followed by `JSON.parse` on a number: `NaN` and the
infinities are written as `null`, a finite number is read back as itself. -/
def JSNum.viaJSON : JSNum → JSValue
  | .fin q => .num (.fin q)
  | .nan => .null
  | .posInf => .null
  | .negInf => .null

mutual

/-- The value that `JSON.parse` reads back from what `JSON.stringify` writes for a value:
a property whose value is `undefined` is left out, an `undefined` array element is written
as `null`, numbers go through `JSNum.viaJSON`, strings, booleans and `null` are unchanged. -/
def viaJSON : JSValue → JSValue
  | .undefined => .null
  | .null => .null
  | .bool b => .bool b
  | .num x => x.viaJSON
  | .str s => .str s
  | .arr items => .arr (viaJSONItems items)
  | .obj props => .obj (viaJSONProps props)

/-- The elements of an array, each written and read back. -/
def viaJSONItems : List JSValue → List JSValue
  | [] => []
  | x :: xs => viaJSON x :: viaJSONItems xs

/-- The properties of an object, each written and read back, those with the value
`undefined` left out. -/
def viaJSONProps : List (String × JSValue) → List (String × JSValue)
  | [] => []
  | (_, .undefined) :: ps => viaJSONProps ps
  | (k, v) :: ps => (k, viaJSON v) :: viaJSONProps ps

end

/-- The record both scripts build for each element of the input array. -/
structure CanonicalDrug where
  code : JSValue
  genericName : JSValue
  brandName : JSValue
  company : JSValue
  launchDate : JSValue

/-- The template literal with the one-based position: "DRUG-" followed by `index + 1`. -/
def drugLabel (index : Nat) : JSValue :=
  .str ("DRUG-" ++ toString (index + 1))

/-- The operator `a || b` on values already read. -/
def jsOrVal (a b : JSValue) : JSValue :=
  if a.truthy then a else b

/-- The condition guarding `console.warn` in both scripts:
`!d.genericName || !d.brandName || !d.company`. -/
def missingRequired (d : CanonicalDrug) : Bool :=
  (jsOrVal (jsOrVal (jsNot d.genericName) (jsNot d.brandName)) (jsNot d.company)).truthy

/-- The filter predicate of both scripts: `d.genericName && d.brandName && d.company`,
taken as a boolean by `Array.prototype.filter`. -/
def isValid (d : CanonicalDrug) : Bool :=
  (jsAnd (jsAnd d.genericName d.brandName) d.company).truthy

/-! ## convert-data.js -/

namespace ConvertData

/-- Shape detection, lines 24-36.  `none` is the branch that prints
"Could not find array of drugs in the JSON file" and calls `process.exit(1)`. -/
def locate (data : JSValue) : Except JSError (Option (List JSValue)) :=
  if data.isArray then .ok (some data.items)
  else
    match getProp data "drugs" with
    | .error e => .error e
    | .ok d =>
      if (jsAnd d (.bool d.isArray)).truthy then .ok (some d.items)
      else
        match getProp data "data" with
        | .error e => .error e
        | .ok d2 =>
          if (jsAnd d2 (.bool d2.isArray)).truthy then .ok (some d2.items)
          else .ok none

/-- The callback of `drugs.map`, lines 43-49 and 59: the record built for `drug` at
position `index`; `now` is what `new Date().toISOString()` returns if it is reached. -/
def convert (drug : JSValue) (index : Nat) (now : String) : Except JSError CanonicalDrug := do
  let code ← jsOr (jsOr (jsOr (jsOr (getProp drug "code") fun _ => getProp drug "drugCode")
    fun _ => getProp drug "id") fun _ => getProp drug "drug_id") fun _ => .ok (drugLabel index)
  let genericName ← jsOr (jsOr (jsOr (jsOr (getProp drug "genericName")
    fun _ => getProp drug "generic_name") fun _ => getProp drug "generic")
    fun _ => getProp drug "genericName") fun _ => .ok (.str "")
  let brandName ← jsOr (jsOr (jsOr (jsOr (getProp drug "brandName")
    fun _ => getProp drug "brand_name") fun _ => getProp drug "brand")
    fun _ => getProp drug "brandName") fun _ => .ok (.str "")
  let company ← jsOr (jsOr (jsOr (jsOr (getProp drug "company")
    fun _ => getProp drug "companyName") fun _ => getProp drug "manufacturer")
    fun _ => getProp drug "manufacturerName") fun _ => .ok (.str "")
  let launchDate ← jsOr (jsOr (jsOr (jsOr (getProp drug "launchDate")
    fun _ => getProp drug "launch_date") fun _ => getProp drug "date")
    fun _ => getProp drug "launchDate") fun _ => .ok (.str now)
  pure { code, genericName, brandName, company, launchDate }

/-- What `console.warn` receives at line 53: the one-based record number of the message
and the object with the `original` and `converted` forms. -/
structure Warning where
  recordNumber : Nat
  original : JSValue
  converted : CanonicalDrug

/-- The whole of `drugs.map`, lines 41-60, from position `index` on: the warnings printed
so far, in order, and either the converted records or the exception that stopped the map.
`clock i` is the time read while element `i` is converted. -/
def convertedDrugs (clock : Nat → String) :
    Nat → List JSValue → List Warning × Except JSError (List CanonicalDrug)
  | _, [] => ([], .ok [])
  | index, drug :: rest =>
    match convert drug index (clock index) with
    | .error e => ([], .error e)
    | .ok converted =>
      let warned : List Warning :=
        if missingRequired converted then
          [{ recordNumber := index + 1, original := drug, converted := converted }]
        else []
      match convertedDrugs clock (index + 1) rest with
      | (ws, .ok cs) => (warned ++ ws, .ok (converted :: cs))
      | (ws, .error e) => (warned ++ ws, .error e)

/-- The filter of lines 63-65. -/
def validDrugs (converted : List CanonicalDrug) : List CanonicalDrug :=
  converted.filter isValid

/-- How a run of the script ends. -/
inductive Outcome where
  /-- Exit by `process.exit(1)`: no array found (line 35) or an exception caught (line 81);
  nothing is written. -/
  | exit1
  /-- Line 70: the valid records written to the output file. -/
  | written (validDrugs : List CanonicalDrug)

/-- The script from the parsed JSON value on, lines 24-82. -/
def run (data : JSValue) (clock : Nat → String) : List Warning × Outcome :=
  match locate data with
  | .error _ => ([], .exit1)
  | .ok none => ([], .exit1)
  | .ok (some drugs) =>
    match convertedDrugs clock 0 drugs with
    | (ws, .error _) => (ws, .exit1)
    | (ws, .ok cs) => (ws, .written (validDrugs cs))

end ConvertData

/-! ## init-db.js -/

namespace InitDb

/-- The fallback records of lines 12-34. -/
def sampleDrugs : List JSValue :=
  [ .obj [("code", .str "0006-0568"), ("genericName", .str "vorinostat"),
          ("brandName", .str "ZOLINZA"), ("company", .str "Merck Sharp & Dohme Corp."),
          ("launchDate", .str "2004-02-14T23:01:10Z")],
    .obj [("code", .str "0006-1234"), ("genericName", .str "imatinib"),
          ("brandName", .str "GLEEVEC"),
          ("company", .str "Novartis Pharmaceuticals Corporation"),
          ("launchDate", .str "2001-05-10T00:00:00Z")],
    .obj [("code", .str "0006-5678"), ("genericName", .str "trastuzumab"),
          ("brandName", .str "HERCEPTIN"), ("company", .str "Genentech, Inc."),
          ("launchDate", .str "1998-09-25T00:00:00Z")] ]

/-- What the script finds at `drugData.json`. -/
inductive DrugDataFile where
  /-- No file: `fs.existsSync` is false. -/
  | missing
  /-- A file on which `JSON.parse` throws. -/
  | unparsable
  /-- A file for which `JSON.parse` returns this value. -/
  | parsed (drugData : JSValue)

/-- Shape detection inside the `try`, lines 46-55: an unrecognised structure takes the
sample data. -/
def detect (drugData : JSValue) : Except JSError (List JSValue) :=
  if drugData.isArray then .ok drugData.items
  else
    match getProp drugData "drugs" with
    | .error e => .error e
    | .ok d =>
      if (jsAnd d (.bool d.isArray)).truthy then .ok d.items
      else
        match getProp drugData "data" with
        | .error e => .error e
        | .ok d2 =>
          if (jsAnd d2 (.bool d2.isArray)).truthy then .ok d2.items
          else .ok sampleDrugs

/-- Lines 36-67: the array to normalise.  A missing file and every exception caught by
the `catch` (a parse error, a property read on `null`) take the sample data. -/
def drugsToInsert : DrugDataFile → List JSValue
  | .missing => sampleDrugs
  | .unparsable => sampleDrugs
  | .parsed drugData =>
    match detect drugData with
    | .ok drugs => drugs
    | .error _ => sampleDrugs

/-- The callback of `drugsToInsert.map`, lines 72-78 and 85. -/
def normalize (drug : JSValue) (index : Nat) (now : String) : Except JSError CanonicalDrug := do
  let code ← jsOr (jsOr (jsOr (getProp drug "code") fun _ => getProp drug "drugCode")
    fun _ => getProp drug "id") fun _ => .ok (drugLabel index)
  let genericName ← jsOr (jsOr (jsOr (getProp drug "genericName")
    fun _ => getProp drug "generic_name") fun _ => getProp drug "generic")
    fun _ => .ok (.str "")
  let brandName ← jsOr (jsOr (jsOr (getProp drug "brandName")
    fun _ => getProp drug "brand_name") fun _ => getProp drug "brand")
    fun _ => .ok (.str "")
  let company ← jsOr (jsOr (jsOr (getProp drug "company")
    fun _ => getProp drug "companyName") fun _ => getProp drug "manufacturer")
    fun _ => .ok (.str "")
  let launchDate ← jsOr (jsOr (jsOr (getProp drug "launchDate")
    fun _ => getProp drug "launch_date") fun _ => getProp drug "date")
    fun _ => .ok (.str now)
  pure { code, genericName, brandName, company, launchDate }

/-- What `console.warn` receives at line 82: the zero-based index of the message and the
normalised record. -/
structure Warning where
  index : Nat
  normalizedDrug : CanonicalDrug

/-- The `map` of lines 70-85 from position `index` on: the warnings printed, in order, and
either the normalised records or the exception that stopped the map (it is not caught:
the script ends before the database is touched). -/
def normalizedDrugs (clock : Nat → String) :
    Nat → List JSValue → List Warning × Except JSError (List CanonicalDrug)
  | _, [] => ([], .ok [])
  | index, drug :: rest =>
    match normalize drug index (clock index) with
    | .error e => ([], .error e)
    | .ok normalizedDrug =>
      let warned : List Warning :=
        if missingRequired normalizedDrug then
          [{ index := index, normalizedDrug := normalizedDrug }]
        else []
      match normalizedDrugs clock (index + 1) rest with
      | (ws, .ok ds) => (warned ++ ws, .ok (normalizedDrug :: ds))
      | (ws, .error e) => (warned ++ ws, .error e)

/-- Lines 70-86: `validatedDrugs`, the map followed by the filter. -/
def validatedDrugs (clock : Nat → String) (drugs : List JSValue) :
    List Warning × Except JSError (List CanonicalDrug) :=
  match normalizedDrugs clock 0 drugs with
  | (ws, .ok ds) => (ws, .ok (ds.filter isValid))
  | (ws, .error e) => (ws, .error e)

/-- The records handed to the `INSERT` statement, in order (lines 104-110), for a given
content of `drugData.json`; an error when the script died before `db.serialize`. -/
def inserted (file : DrugDataFile) (clock : Nat → String) :
    List Warning × Except JSError (List CanonicalDrug) :=
  validatedDrugs clock (drugsToInsert file)

end InitDb

/-! ## server.js: `GET /api/drugs` -/

namespace Server

/-- The code points `parseInt` skips at the start of its argument (white space and line
terminators). -/
def isStrWhiteSpace (c : Char) : Bool :=
  c.toNat ∈ [9, 10, 11, 12, 13, 32, 160, 5760, 8232, 8233, 8239, 8287, 12288, 65279]
    || (8192 ≤ c.toNat && c.toNat ≤ 8202)

/-- The value of a character as a digit, letters counting from ten. -/
def digitValue (c : Char) : Option Nat :=
  if 48 ≤ c.toNat ∧ c.toNat ≤ 57 then some (c.toNat - 48)
  else if 97 ≤ c.toNat ∧ c.toNat ≤ 122 then some (c.toNat - 97 + 10)
  else if 65 ≤ c.toNat ∧ c.toNat ≤ 90 then some (c.toNat - 65 + 10)
  else none

/-- The longest run of leading digits valid in the radix, as digit values. -/
def leadingDigits (radix : Nat) : List Char → List Nat
  | [] => []
  | c :: cs =>
    match digitValue c with
    | some d => if d < radix then d :: leadingDigits radix cs else []
    | none => []

/-- The call `parseInt(s)` with no radix argument: skip white space, read a sign, read a `0x`
or `0X` marker (radix 16, otherwise 10), take the longest run of digits; `NaN` when that
run is empty, otherwise the double nearest to the signed integer the digits write. -/
def parseInt (s : String) : JSNum :=
  let trimmed := s.toList.dropWhile isStrWhiteSpace
  let signed : Int × List Char :=
    match trimmed with
    | '-' :: r => (-1, r)
    | '+' :: r => (1, r)
    | r => (1, r)
  let based : Nat × List Char :=
    match signed.2 with
    | '0' :: 'x' :: r => (16, r)
    | '0' :: 'X' :: r => (16, r)
    | r => (10, r)
  match leadingDigits based.1 based.2 with
  | [] => .nan
  | d :: ds =>
    toDouble ((signed.1 * ((d :: ds).foldl (fun acc x => acc * based.1 + x) 0 : Nat) : Int) : ℚ)

/-- The call `Math.max(a, b)`: `NaN` as soon as one argument is `NaN`. -/
def mathMax : JSNum → JSNum → JSNum
  | .fin a, .fin b => .fin (max a b)
  | .nan, _ => .nan
  | _, .nan => .nan
  | .posInf, _ => .posInf
  | _, .posInf => .posInf
  | .negInf, b => b
  | a, .negInf => a

/-- The call `Math.min(a, b)`: `NaN` as soon as one argument is `NaN`. -/
def mathMin : JSNum → JSNum → JSNum
  | .fin a, .fin b => .fin (min a b)
  | .nan, _ => .nan
  | _, .nan => .nan
  | .negInf, _ => .negInf
  | _, .negInf => .negInf
  | .posInf, b => b
  | a, .posInf => a

/-- The difference `a - b`, rounded to a double. -/
def jsSub : JSNum → JSNum → JSNum
  | .fin a, .fin b => toDouble (a - b)
  | .nan, _ => .nan
  | _, .nan => .nan
  | .posInf, .posInf => .nan
  | .negInf, .negInf => .nan
  | .posInf, _ => .posInf
  | .negInf, _ => .negInf
  | .fin _, .posInf => .negInf
  | .fin _, .negInf => .posInf

/-- The product `a * b`, rounded to a double. -/
def jsMul : JSNum → JSNum → JSNum
  | .fin a, .fin b => toDouble (a * b)
  | .nan, _ => .nan
  | _, .nan => .nan
  | .posInf, .posInf => .posInf
  | .posInf, .negInf => .negInf
  | .negInf, .posInf => .negInf
  | .negInf, .negInf => .posInf
  | .posInf, .fin b => if b = 0 then .nan else signedInf (decide (b < 0))
  | .negInf, .fin b => if b = 0 then .nan else signedInf (decide (0 < b))
  | .fin a, .posInf => if a = 0 then .nan else signedInf (decide (a < 0))
  | .fin a, .negInf => if a = 0 then .nan else signedInf (decide (0 < a))

/-- The quotient `a / b`, exact on finite values with a divisor other than zero.  Its only
use is `Math.ceil(totalRecords / limitNum)` with a row count, below `2^53`, and a limit in
[1,100], where rounding the quotient to a double does not change its ceiling.  A zero
divisor is taken as `+0`. -/
def jsDiv : JSNum → JSNum → JSNum
  | .fin a, .fin b =>
    if b = 0 then (if a = 0 then .nan else signedInf (decide (a < 0))) else .fin (a / b)
  | .nan, _ => .nan
  | _, .nan => .nan
  | .fin _, .posInf => .fin 0
  | .fin _, .negInf => .fin 0
  | .posInf, .fin b => signedInf (decide (b < 0))
  | .negInf, .fin b => signedInf (decide (0 ≤ b))
  | .posInf, .posInf => .nan
  | .posInf, .negInf => .nan
  | .negInf, .posInf => .nan
  | .negInf, .negInf => .nan

/-- The call `Math.ceil(a)`. -/
def mathCeil : JSNum → JSNum
  | .fin a => .fin (⌈a⌉ : Int)
  | .nan => .nan
  | .posInf => .posInf
  | .negInf => .negInf

/-- The comparison `a < b`: false when either side is `NaN`. -/
def jsLt : JSNum → JSNum → Bool
  | .fin a, .fin b => decide (a < b)
  | .nan, _ => false
  | _, .nan => false
  | .negInf, .negInf => false
  | .negInf, _ => true
  | .posInf, _ => false
  | .fin _, .posInf => true
  | .fin _, .negInf => false

/-- The comparison `a > b`. -/
def jsGt (a b : JSNum) : Bool :=
  jsLt b a

/-- Line 87: `Math.max(1, parseInt(page))`, with the default `page = 1` of line 85 for an
absent parameter (`parseInt` reads the number 1 as the string "1"). -/
def pageNum (page : Option String) : JSNum :=
  mathMax (.fin 1) (parseInt (page.getD "1"))

/-- Line 88: `Math.min(100, Math.max(1, parseInt(limit)))`, default `limit = 50`. -/
def limitNum (limit : Option String) : JSNum :=
  mathMin (.fin 100) (mathMax (.fin 1) (parseInt (limit.getD "50")))

/-- Line 89: `(pageNum - 1) * limitNum`. -/
def offset (page limit : Option String) : JSNum :=
  jsMul (jsSub (pageNum page) (.fin 1)) (limitNum limit)

/-- A row of the `drugs` table. -/
structure Row where
  id : Nat
  code : String
  genericName : String
  brandName : String
  company : String
  launchDate : String
  deriving DecidableEq

/-- The `WHERE company = ?` clause, present when `company` is truthy (lines 94 and 112). -/
def matching (table : List Row) (company : Option String) : List Row :=
  match company with
  | some c => if c ≠ "" then table.filter (fun r => r.company = c) else table
  | none => table

/-- The count query of lines 91-97. -/
def countRows (table : List Row) (company : Option String) : Nat :=
  (matching table company).length

/-- The row query of lines 99-118, as SQLite runs it: the matching rows by `launchDate`
descending (rows with equal dates keep their table order), `OFFSET` rows skipped, at most
`LIMIT` rows returned.  SQLite takes `LIMIT` and `OFFSET` as 64-bit integers: a value
bound to `NaN`, to an infinity, to a number that is not an integer or to one of magnitude
`2^63` or more is rejected (datatype mismatch), which the callback receives as `err`. -/
def selectRows (table : List Row) (company : Option String) (limit off : JSNum) :
    Option (List Row) :=
  match limit, off with
  | .fin l, .fin o =>
    if l.den = 1 ∧ o.den = 1 ∧ l.num.natAbs < 2 ^ 63 ∧ o.num.natAbs < 2 ^ 63 then
      let sorted := (matching table company).insertionSort
        (fun a b => b.launchDate ≤ a.launchDate)
      let skipped := sorted.drop o.num.toNat
      some (if l.num < 0 then skipped else skipped.take l.num.toNat)
    else none
  | _, _ => none

/-- An element of `data` in the response (lines 135-141). -/
structure DrugView where
  id : Nat
  code : String
  name : String
  company : String
  launchDate : String
  deriving DecidableEq

/-- The `pagination` object of the response (lines 145-152). -/
structure Pagination where
  currentPage : JSNum
  totalPages : JSNum
  totalRecords : JSNum
  limit : JSNum
  hasNextPage : Bool
  hasPrevPage : Bool
  deriving DecidableEq

/-- The response of the handler. -/
inductive Response where
  /-- Status 200 with `data` and `pagination`. -/
  | ok (data : List DrugView) (pagination : Pagination)
  /-- Status 500 with the error message of the database. -/
  | serverError
  deriving DecidableEq

/-- Lines 135-141. -/
def formatRow (row : Row) : DrugView :=
  { id := row.id, code := row.code,
    name := row.genericName ++ " (" ++ row.brandName ++ ")",
    company := row.company, launchDate := row.launchDate }

/-- Lines 126-127 and 145-152: the pagination object from the count and the normalised
page and limit. -/
def pagination (totalRecords pageNum limitNum : JSNum) : Pagination :=
  let totalPages := mathCeil (jsDiv totalRecords limitNum)
  { currentPage := pageNum,
    totalPages := totalPages,
    totalRecords := totalRecords,
    limit := limitNum,
    hasNextPage := jsLt pageNum totalPages,
    hasPrevPage := jsGt pageNum (.fin 1) }

/-- The handler of `GET /api/drugs`, lines 84-156, over a table that can be read.  The
query parameters are absent or strings (the arrays and objects a query-string parser can
also produce are not modelled). -/
def getDrugs (table : List Row) (company page limit : Option String) : Response :=
  let totalRecords : JSNum := .fin (countRows table company)
  match selectRows table company (limitNum limit) (offset page limit) with
  | none => .serverError
  | some rows =>
    .ok (rows.map formatRow) (pagination totalRecords (pageNum page) (limitNum limit))

end Server

/-! ## init-db.js: the database load -/

namespace InitDb

/-- A row of the `drugs` table as the load writes it: the identifier given by
`AUTOINCREMENT` and the five values bound to the INSERT statement (the conversion of a
bound value by the column type is not modelled). -/
structure StoredRow where
  id : Nat
  drug : CanonicalDrug

/-- The database file: the rows of `drugs` in insertion order, and the AUTOINCREMENT
counter, the largest identifier given so far (no row has a larger one). -/
structure Database where
  rows : List StoredRow
  sequence : Nat

/-- The statements `db.serialize` runs, lines 90-110.  The script opens no transaction,
so each statement is committed on its own. -/
inductive Statement where
  /-- Line 92: `CREATE TABLE IF NOT EXISTS drugs`. -/
  | createTable
  /-- Line 102: `DELETE FROM drugs`. -/
  | deleteAll
  /-- Line 108: one `stmt.run` of the prepared INSERT. -/
  | insert (drug : CanonicalDrug)

/-- The effect of one statement that succeeds. -/
def Database.exec (db : Database) : Statement → Database
  | .createTable => db
  | .deleteAll => { db with rows := [] }
  | .insert drug =>
    { rows := db.rows ++ [{ id := db.sequence + 1, drug := drug }],
      sequence := db.sequence + 1 }

/-- The statements of a load, in the order `db.serialize` runs them. -/
def statements (validatedDrugs : List CanonicalDrug) : List Statement :=
  .createTable :: .deleteAll :: validatedDrugs.map .insert

/-- The database left by running the statements in order, the first one at position
`position`; `fails k` tells whether the statement at position `k` fails.  A failing
statement changes nothing.  Every statement is queued inside `db.serialize` before any
runs, and none has a callback, so the statements after a failing one still run. -/
def runStatements (fails : Nat → Bool) : Nat → Database → List Statement → Database
  | _, db, [] => db
  | position, db, s :: rest =>
    runStatements fails (position + 1) (if fails position then db else db.exec s) rest

/-- The bulk load of lines 90-110 on the database `db`: position 0 is the CREATE, position
1 the DELETE, position `k + 2` the INSERT of the record at index `k`. -/
def load (db : Database) (validatedDrugs : List CanonicalDrug) (fails : Nat → Bool) :
    Database :=
  runStatements fails 0 db (statements validatedDrugs)

end InitDb

/-! ## convert-data.js: the output file -/

namespace ConvertData

/-- The object literal of lines 43-49 as a value. -/
def recordObject (d : CanonicalDrug) : JSValue :=
  .obj [("code", d.code), ("genericName", d.genericName), ("brandName", d.brandName),
    ("company", d.company), ("launchDate", d.launchDate)]

/-- An element of the output file as `JSON.parse` reads it back. -/
def fileRecord (d : CanonicalDrug) : JSValue :=
  viaJSON (recordObject d)

/-- The output file of line 70, `JSON.stringify(validDrugs, null, 2)`, as `JSON.parse`
reads it back. -/
def outputFile (validDrugs : List CanonicalDrug) : JSValue :=
  viaJSON (.arr (validDrugs.map recordObject))

end ConvertData

/-! ## App.js: the company filter and the request for the drugs -/

namespace App

/-- The `pagination` state, lines 63-70; after the first response it is the `pagination`
object of the server. -/
structure PaginationState where
  currentPage : JSValue
  totalPages : JSValue
  totalRecords : JSValue
  limit : JSValue
  hasNextPage : JSValue
  hasPrevPage : JSValue

/-- The part of the component state the request depends on. -/
structure State where
  selectedCompany : String
  pagination : PaginationState

/-- The initial state, lines 58 and 63-70. -/
def initialState : State :=
  { selectedCompany := "",
    pagination :=
      { currentPage := .num (.fin 1), totalPages := .num (.fin 1),
        totalRecords := .num (.fin 0), limit := .num (.fin 10),
        hasNextPage := .bool false, hasPrevPage := .bool false } }

/-- Lines 134-137, called by the dropdown with the chosen value and by the delete icon of
the chip with the empty string. -/
def handleCompanyFilter (company : String) (s : State) : State :=
  { selectedCompany := company,
    pagination := { s.pagination with currentPage := .num (.fin 1) } }

/-- Lines 139-142, called by a click on a company chip of the table. -/
def handleCompanyClick (company : String) (s : State) : State :=
  { selectedCompany := company,
    pagination := { s.pagination with currentPage := .num (.fin 1) } }

/-- Lines 144-146. -/
def handlePageChange (newPage : JSValue) (s : State) : State :=
  { s with pagination := { s.pagination with currentPage := newPage } }

/-- Lines 148-150. -/
def handlePageSizeChange (newLimit : JSValue) (s : State) : State :=
  { s with pagination := { s.pagination with limit := newLimit, currentPage := .num (.fin 1) } }

/-- The own properties an object spread copies.  The operand at line 90 is an object or
the empty string, which has none. -/
def spreadProps : JSValue → List (String × JSValue)
  | .obj ps => ps
  | _ => []

/-- The `params` object of the request to `/api/drugs`, lines 89-93, built from the state
of the render whose effect calls `fetchData`. -/
def drugsParams (s : State) : JSValue :=
  .obj (spreadProps (jsAnd (.str s.selectedCompany)
      (.obj [("company", .str s.selectedCompany)]))
    ++ [("page", s.pagination.currentPage), ("limit", s.pagination.limit)])

end App

/-! ## The resolution rule as the specification words it -/

/-- The value of the first alias, in the given order, whose value on the record is truthy;
the default when no alias has a truthy value. -/
def firstTruthyAlias (record : JSValue) (aliases : List String) (dflt : JSValue) : JSValue :=
  match aliases.find? (fun k => (record.prop k).truthy) with
  | some k => record.prop k
  | none => dflt

/-- A value that is a string. -/
def JSValue.isString : JSValue → Bool
  | .str _ => true
  | _ => false

/-- A value that is a string other than the empty string. -/
def JSValue.isNonEmptyString : JSValue → Bool
  | .str s => decide (s ≠ "")
  | _ => false

/-- The report convert-data is to print for the elements `drugs`, numbered from `start`,
whose converted forms are `cs`: one warning for each element whose converted form fails
the validity check, in input order, carrying the one-based record number, the original
and the converted form. -/
def ConvertData.expectedWarnings (start : Nat) (drugs : List JSValue)
    (cs : List CanonicalDrug) : List ConvertData.Warning :=
  ((drugs.enumFrom start).zip cs).filterMap fun p =>
    if isValid p.2 then none
    else some { recordNumber := p.1.1 + 1, original := p.1.2, converted := p.2 }

/-- The report init-db is to print: one warning for each element whose normalised form
fails the validity check, in input order, carrying the zero-based index and the normalised
form. -/
def InitDb.expectedWarnings (start : Nat) (drugs : List JSValue)
    (ds : List CanonicalDrug) : List InitDb.Warning :=
  ((drugs.enumFrom start).zip ds).filterMap fun p =>
    if isValid p.2 then none
    else some { index := p.1.1, normalizedDrug := p.2 }

/-- The records of a load whose INSERT does not fail, in order: the record at index `k` is
inserted by the statement at position `k + 2`. -/
def InitDb.succeeded (fails : Nat → Bool) (records : List CanonicalDrug) :
    List CanonicalDrug :=
  ((records.enumFrom 2).filter (fun q => !fails q.1)).map Prod.snd

/-! ## Lemmas on the operators -/

theorem getProp_eq_ok {v : JSValue} (hn : v ≠ .null) (hu : v ≠ .undefined) (k : String) :
    getProp v k = .ok (v.prop k) := by
  cases v <;> first | rfl | contradiction

theorem jsOr_ok (a : JSValue) (b : Unit → Except JSError JSValue) :
    jsOr (.ok a) b = if a.truthy then .ok a else b () := rfl

theorem jsOr_chain4 (a b c d e : JSValue) :
    jsOr (jsOr (jsOr (jsOr (.ok a) fun _ => .ok b) fun _ => .ok c) fun _ => .ok d)
        (fun _ => .ok e)
      = .ok (if a.truthy then a else if b.truthy then b else if c.truthy then c
              else if d.truthy then d else e) := by
  cases ha : a.truthy <;> cases hb : b.truthy <;> cases hc : c.truthy <;>
    cases hd : d.truthy <;> simp [jsOr, ha, hb, hc, hd]

theorem firstTruthyAlias_four (r : JSValue) (k1 k2 k3 k4 : String) (e : JSValue) :
    firstTruthyAlias r [k1, k2, k3, k4] e
      = if (r.prop k1).truthy then r.prop k1 else if (r.prop k2).truthy then r.prop k2
        else if (r.prop k3).truthy then r.prop k3
        else if (r.prop k4).truthy then r.prop k4 else e := by
  cases h1 : (r.prop k1).truthy <;> cases h2 : (r.prop k2).truthy <;>
    cases h3 : (r.prop k3).truthy <;> cases h4 : (r.prop k4).truthy <;>
    simp [firstTruthyAlias, List.find?, h1, h2, h3, h4]

theorem firstTruthyAlias_three (r : JSValue) (k1 k2 k3 : String) (e : JSValue) :
    firstTruthyAlias r [k1, k2, k3] e
      = if (r.prop k1).truthy then r.prop k1 else if (r.prop k2).truthy then r.prop k2
        else if (r.prop k3).truthy then r.prop k3 else e := by
  cases h1 : (r.prop k1).truthy <;> cases h2 : (r.prop k2).truthy <;>
    cases h3 : (r.prop k3).truthy <;>
    simp [firstTruthyAlias, List.find?, h1, h2, h3]

theorem convert_eq_ok {drug : JSValue} (hn : drug ≠ .null) (hu : drug ≠ .undefined)
    (index : Nat) (now : String) :
    ConvertData.convert drug index now = .ok
      { code := firstTruthyAlias drug ["code", "drugCode", "id", "drug_id"] (drugLabel index),
        genericName :=
          firstTruthyAlias drug ["genericName", "generic_name", "generic"] (.str ""),
        brandName := firstTruthyAlias drug ["brandName", "brand_name", "brand"] (.str ""),
        company := firstTruthyAlias drug
          ["company", "companyName", "manufacturer", "manufacturerName"] (.str ""),
        launchDate :=
          firstTruthyAlias drug ["launchDate", "launch_date", "date"] (.str now) } := by
  simp only [ConvertData.convert, getProp_eq_ok hn hu, jsOr_chain4, firstTruthyAlias_four,
    firstTruthyAlias_three, bind, Except.bind, pure, Except.pure]
  congr 2
  · cases (drug.prop "genericName").truthy <;> simp
  · cases (drug.prop "brandName").truthy <;> simp
  · cases (drug.prop "launchDate").truthy <;> simp

theorem firstTruthyAlias_truthy (r : JSValue) (ks : List String) (d : JSValue)
    (hd : d.truthy = true) : (firstTruthyAlias r ks d).truthy = true := by
  unfold firstTruthyAlias
  split
  · next k hk => simpa using List.find?_some hk
  · exact hd

theorem drugLabel_truthy (index : Nat) : (drugLabel index).truthy = true := by
  have h : ("DRUG-" ++ toString (index + 1)).length ≠ 0 := by
    rw [String.length_append]
    have : "DRUG-".length = 5 := by decide
    omega
  have h2 : "DRUG-" ++ toString (index + 1) ≠ "" := by
    intro he
    rw [he] at h
    exact h rfl
  simp [drugLabel, JSValue.truthy, h2]

theorem truthy_ne_empty {v : JSValue} (h : v.truthy = true) : v ≠ .str "" := by
  intro he
  rw [he] at h
  simp [JSValue.truthy] at h

theorem firstTruthyAlias_second (r : JSValue) (k1 k2 : String) (ks : List String)
    (d : JSValue) (h1 : (r.prop k1).truthy = false) (h2 : (r.prop k2).truthy = true) :
    firstTruthyAlias r (k1 :: k2 :: ks) d = r.prop k2 := by
  simp [firstTruthyAlias, List.find?, h1, h2]

theorem jsOr_chain3 (a b c e : JSValue) :
    jsOr (jsOr (jsOr (.ok a) fun _ => .ok b) fun _ => .ok c) (fun _ => .ok e)
      = .ok (if a.truthy then a else if b.truthy then b else if c.truthy then c else e) := by
  cases ha : a.truthy <;> cases hb : b.truthy <;> cases hc : c.truthy <;>
    simp [jsOr, ha, hb, hc]

theorem normalize_eq_ok {drug : JSValue} (hn : drug ≠ .null) (hu : drug ≠ .undefined)
    (index : Nat) (now : String) :
    InitDb.normalize drug index now = .ok
      { code := firstTruthyAlias drug ["code", "drugCode", "id"] (drugLabel index),
        genericName :=
          firstTruthyAlias drug ["genericName", "generic_name", "generic"] (.str ""),
        brandName := firstTruthyAlias drug ["brandName", "brand_name", "brand"] (.str ""),
        company :=
          firstTruthyAlias drug ["company", "companyName", "manufacturer"] (.str ""),
        launchDate :=
          firstTruthyAlias drug ["launchDate", "launch_date", "date"] (.str now) } := by
  simp only [InitDb.normalize, getProp_eq_ok hn hu, jsOr_chain3, firstTruthyAlias_three,
    bind, Except.bind, pure, Except.pure]

theorem firstTruthyAlias_none (r : JSValue) (ks : List String) (d : JSValue)
    (h : ∀ k ∈ ks, (r.prop k).truthy = false) : firstTruthyAlias r ks d = d := by
  have hf : ks.find? (fun k => (r.prop k).truthy) = none := by
    rw [List.find?_eq_none]
    intro k hk
    simp [h k hk]
  simp [firstTruthyAlias, hf]

theorem isValid_iff (d : CanonicalDrug) :
    isValid d = true ↔
      d.genericName.truthy = true ∧ d.brandName.truthy = true ∧ d.company.truthy = true := by
  unfold isValid jsAnd
  cases hg : d.genericName.truthy <;> cases hb : d.brandName.truthy <;>
    cases hc : d.company.truthy <;> simp [hg, hb, hc]

theorem truthy_bool (b : Bool) : (JSValue.bool b).truthy = b := rfl

theorem missingRequired_eq_not_isValid (d : CanonicalDrug) :
    missingRequired d = !isValid d := by
  unfold missingRequired isValid jsAnd jsOrVal jsNot
  cases hg : d.genericName.truthy <;> cases hb : d.brandName.truthy <;>
    cases hc : d.company.truthy <;> simp [hg, hb, hc, truthy_bool]

theorem truthy_eq_isNonEmptyString {v : JSValue} (h : v.isString = true) :
    v.truthy = v.isNonEmptyString := by
  cases v <;> first | rfl | simp [JSValue.isString] at h

theorem isValid_of_strings (d : CanonicalDrug) (hg : d.genericName.isString = true)
    (hb : d.brandName.isString = true) (hc : d.company.isString = true) :
    isValid d = true ↔ d.genericName.isNonEmptyString = true ∧
      d.brandName.isNonEmptyString = true ∧ d.company.isNonEmptyString = true := by
  rw [isValid_iff, truthy_eq_isNonEmptyString hg, truthy_eq_isNonEmptyString hb,
    truthy_eq_isNonEmptyString hc]

theorem not_isValid_of_empty (d : CanonicalDrug)
    (h : d.genericName = .str "" ∨ d.brandName = .str "" ∨ d.company = .str "") :
    isValid d = false := by
  cases hv : isValid d
  · rfl
  · obtain ⟨h1, h2, h3⟩ := (isValid_iff d).1 hv
    rcases h with h | h | h
    · rw [h] at h1; simp [JSValue.truthy] at h1
    · rw [h] at h2; simp [JSValue.truthy] at h2
    · rw [h] at h3; simp [JSValue.truthy] at h3

/-! ## The claims -/

/-- C1: for every raw record (any value a property can be read from) and every zero-based
index, the convert-data normaliser returns the record whose fields are the value of the
first truthy alias in the fixed order, else the default: "DRUG-" followed by index+1 for
code, the empty string for genericName, brandName and company, the current timestamp for
launchDate.  A field whose first alias is not truthy and whose second alias is truthy takes
the value of the second alias, and code is truthy, hence never the empty string. -/
theorem C1_convert_first_truthy_alias (drug : JSValue) (index : Nat) (now : String)
    (hn : drug ≠ .null) (hu : drug ≠ .undefined) :
    ∃ c : CanonicalDrug, ConvertData.convert drug index now = .ok c ∧
      c.code = firstTruthyAlias drug ["code", "drugCode", "id", "drug_id"]
        (.str ("DRUG-" ++ toString (index + 1))) ∧
      c.genericName
        = firstTruthyAlias drug ["genericName", "generic_name", "generic"] (.str "") ∧
      c.brandName = firstTruthyAlias drug ["brandName", "brand_name", "brand"] (.str "") ∧
      c.company = firstTruthyAlias drug
        ["company", "companyName", "manufacturer", "manufacturerName"] (.str "") ∧
      c.launchDate
        = firstTruthyAlias drug ["launchDate", "launch_date", "date"] (.str now) ∧
      ((drug.prop "code").truthy = false → (drug.prop "drugCode").truthy = true →
        c.code = drug.prop "drugCode") ∧
      ((drug.prop "genericName").truthy = false → (drug.prop "generic_name").truthy = true →
        c.genericName = drug.prop "generic_name") ∧
      ((drug.prop "brandName").truthy = false → (drug.prop "brand_name").truthy = true →
        c.brandName = drug.prop "brand_name") ∧
      ((drug.prop "company").truthy = false → (drug.prop "companyName").truthy = true →
        c.company = drug.prop "companyName") ∧
      ((drug.prop "launchDate").truthy = false → (drug.prop "launch_date").truthy = true →
        c.launchDate = drug.prop "launch_date") ∧
      c.code.truthy = true ∧ c.code ≠ .str "" := by
  refine ⟨_, convert_eq_ok hn hu index now, rfl, rfl, rfl, rfl, rfl, ?_, ?_, ?_, ?_, ?_, ?_, ?_⟩
  · exact fun h1 h2 => firstTruthyAlias_second _ _ _ _ _ h1 h2
  · exact fun h1 h2 => firstTruthyAlias_second _ _ _ _ _ h1 h2
  · exact fun h1 h2 => firstTruthyAlias_second _ _ _ _ _ h1 h2
  · exact fun h1 h2 => firstTruthyAlias_second _ _ _ _ _ h1 h2
  · exact fun h1 h2 => firstTruthyAlias_second _ _ _ _ _ h1 h2
  · exact firstTruthyAlias_truthy _ _ _ (drugLabel_truthy index)
  · exact truthy_ne_empty (firstTruthyAlias_truthy _ _ _ (drugLabel_truthy index))

/-- Witness for C1: a record that has only second-priority aliases, at index 4. -/
theorem C1_convert_first_truthy_alias_witness :
    ∃ c : CanonicalDrug,
      ConvertData.convert (.obj [("generic_name", .str "x"), ("drugCode", .str "D9")]) 4 "t"
        = .ok c ∧
      c.code = .str "D9" ∧ c.genericName = .str "x" ∧ c.brandName = .str "" ∧
      c.launchDate = .str "t" := by
  obtain ⟨c, hc, h1, h2, h3, _, h5, _⟩ := C1_convert_first_truthy_alias
    (.obj [("generic_name", .str "x"), ("drugCode", .str "D9")]) 4 "t"
    (by intro h; cases h) (by intro h; cases h)
  refine ⟨c, hc, ?_, ?_, ?_, ?_⟩
  · rw [h1]; rfl
  · rw [h2]; rfl
  · rw [h3]; rfl
  · rw [h5]; rfl

/-- C2 as stated fails: a record whose genericName is the number 1 is kept in the valid
output of convert-data although its genericName is not a non-empty string. -/
theorem C2_number_field_is_kept :
    ∃ c : CanonicalDrug,
      ConvertData.convert (.obj [("genericName", .num (.fin 1)), ("brandName", .str "B"),
        ("company", .str "C")]) 0 "t" = .ok c ∧
      ConvertData.validDrugs [c] = [c] ∧ isValid c = true ∧
      c.genericName = .num (.fin 1) ∧ c.genericName.isNonEmptyString = false := by
  refine ⟨_, convert_eq_ok (by intro h; cases h) (by intro h; cases h) 0 "t", ?_, ?_, ?_, ?_⟩
  · simp [ConvertData.validDrugs, isValid, jsAnd, firstTruthyAlias, JSValue.prop,
      List.lookup, JSValue.truthy, JSNum.truthy]
  · simp [isValid, jsAnd, firstTruthyAlias, JSValue.prop, List.lookup, JSValue.truthy,
      JSNum.truthy]
  · rfl
  · rfl

/-- C2, amended: in both scripts the normalised record passes the filter exactly when its
genericName, brandName and company are all truthy; when the three are strings this is
exactly that all three are non-empty strings; and a raw record with no truthy value under
any alias of one of the three fields gets the empty string for that field and is
classified invalid. -/
theorem C2_valid_iff_required_truthy (drug : JSValue) (index : Nat) (now : String)
    (hn : drug ≠ .null) (hu : drug ≠ .undefined) :
    (∃ c : CanonicalDrug, ConvertData.convert drug index now = .ok c ∧
      (isValid c = true ↔
        c.genericName.truthy = true ∧ c.brandName.truthy = true ∧ c.company.truthy = true) ∧
      (c.genericName.isString = true → c.brandName.isString = true →
        c.company.isString = true →
        (isValid c = true ↔ c.genericName.isNonEmptyString = true ∧
          c.brandName.isNonEmptyString = true ∧ c.company.isNonEmptyString = true)) ∧
      ((∀ k ∈ ["genericName", "generic_name", "generic"], (drug.prop k).truthy = false) →
        c.genericName = .str "" ∧ isValid c = false) ∧
      ((∀ k ∈ ["brandName", "brand_name", "brand"], (drug.prop k).truthy = false) →
        c.brandName = .str "" ∧ isValid c = false) ∧
      ((∀ k ∈ ["company", "companyName", "manufacturer", "manufacturerName"],
          (drug.prop k).truthy = false) →
        c.company = .str "" ∧ isValid c = false)) ∧
    (∃ d : CanonicalDrug, InitDb.normalize drug index now = .ok d ∧
      (isValid d = true ↔
        d.genericName.truthy = true ∧ d.brandName.truthy = true ∧ d.company.truthy = true) ∧
      (d.genericName.isString = true → d.brandName.isString = true →
        d.company.isString = true →
        (isValid d = true ↔ d.genericName.isNonEmptyString = true ∧
          d.brandName.isNonEmptyString = true ∧ d.company.isNonEmptyString = true)) ∧
      ((∀ k ∈ ["genericName", "generic_name", "generic"], (drug.prop k).truthy = false) →
        d.genericName = .str "" ∧ isValid d = false) ∧
      ((∀ k ∈ ["brandName", "brand_name", "brand"], (drug.prop k).truthy = false) →
        d.brandName = .str "" ∧ isValid d = false) ∧
      ((∀ k ∈ ["company", "companyName", "manufacturer"], (drug.prop k).truthy = false) →
        d.company = .str "" ∧ isValid d = false)) := by
  constructor
  · refine ⟨_, convert_eq_ok hn hu index now, isValid_iff _, isValid_of_strings _, ?_, ?_, ?_⟩
    · intro h
      have he := firstTruthyAlias_none drug _ (.str "") h
      exact ⟨he, not_isValid_of_empty _ (Or.inl he)⟩
    · intro h
      have he := firstTruthyAlias_none drug _ (.str "") h
      exact ⟨he, not_isValid_of_empty _ (Or.inr (Or.inl he))⟩
    · intro h
      have he := firstTruthyAlias_none drug _ (.str "") h
      exact ⟨he, not_isValid_of_empty _ (Or.inr (Or.inr he))⟩
  · refine ⟨_, normalize_eq_ok hn hu index now, isValid_iff _, isValid_of_strings _, ?_, ?_, ?_⟩
    · intro h
      have he := firstTruthyAlias_none drug _ (.str "") h
      exact ⟨he, not_isValid_of_empty _ (Or.inl he)⟩
    · intro h
      have he := firstTruthyAlias_none drug _ (.str "") h
      exact ⟨he, not_isValid_of_empty _ (Or.inr (Or.inl he))⟩
    · intro h
      have he := firstTruthyAlias_none drug _ (.str "") h
      exact ⟨he, not_isValid_of_empty _ (Or.inr (Or.inr he))⟩

/-- Witness for C2: a record with a generic name and a company but no brand under any
alias is given the empty brandName by convert-data and is invalid. -/
theorem C2_valid_iff_required_truthy_witness :
    ∃ c : CanonicalDrug,
      ConvertData.convert (.obj [("generic", .str "x"), ("company", .str "Z")]) 0 "t"
        = .ok c ∧
      c.brandName = .str "" ∧ isValid c = false := by
  obtain ⟨⟨c, hc, _, _, _, hb, _⟩, _⟩ := C2_valid_iff_required_truthy
    (.obj [("generic", .str "x"), ("company", .str "Z")]) 0 "t"
    (by intro h; cases h) (by intro h; cases h)
  have h := hb (by
    intro k hk
    simp only [List.mem_cons, List.mem_singleton, List.mem_nil_iff, or_false] at hk
    rcases hk with rfl | rfl | rfl <;> rfl)
  exact ⟨c, hc, h.1, h.2⟩

/-- C3 as stated fails: on the element `null` both normalisers raise a TypeError, and
convert-data run on the array `[null]` ends in `process.exit(1)`. -/
theorem C3_null_element_raises :
    ConvertData.convert .null 0 "t" = .error .typeError ∧
    InitDb.normalize .null 0 "t" = .error .typeError ∧
    ConvertData.run (.arr [.null]) (fun _ => "t") = ([], .exit1) ∧
    (InitDb.inserted (.parsed (.arr [.null])) (fun _ => "t")).2 = .error .typeError :=
  ⟨rfl, rfl, rfl, rfl⟩

/-- C3, amended: for every element other than `null` (an object, a number, a string, a
boolean, a nested array) and every index, each normaliser returns exactly one canonical
record and raises no exception. -/
theorem C3_non_null_never_fails (drug : JSValue) (index : Nat) (now : String)
    (hn : drug ≠ .null) (hu : drug ≠ .undefined) :
    (∃! c : CanonicalDrug, ConvertData.convert drug index now = .ok c) ∧
    (∃! d : CanonicalDrug, InitDb.normalize drug index now = .ok d) := by
  constructor
  · refine ⟨_, convert_eq_ok hn hu index now, ?_⟩
    intro c hc
    rw [convert_eq_ok hn hu index now] at hc
    exact (Except.ok.inj hc).symm
  · refine ⟨_, normalize_eq_ok hn hu index now, ?_⟩
    intro d hd
    rw [normalize_eq_ok hn hu index now] at hd
    exact (Except.ok.inj hd).symm

/-- Witness for C3: a nested array as element, at index 2. -/
theorem C3_non_null_never_fails_witness :
    (∃! c : CanonicalDrug,
      ConvertData.convert (.arr [.num (.fin 3), .str "a"]) 2 "t" = .ok c) ∧
    (∃! d : CanonicalDrug,
      InitDb.normalize (.arr [.num (.fin 3), .str "a"]) 2 "t" = .ok d) :=
  C3_non_null_never_fails (.arr [.num (.fin 3), .str "a"]) 2 "t"
    (by intro h; cases h) (by intro h; cases h)

theorem prop_isArray_imp_obj (data : JSValue) (k : String)
    (h : (data.prop k).isArray = true) : ∃ ps, data = .obj ps := by
  cases data <;> first | exact ⟨_, rfl⟩ | simp [JSValue.prop, JSValue.isArray] at h

theorem isArray_arr (xs : List JSValue) : (JSValue.arr xs).isArray = true := rfl

theorem items_arr (xs : List JSValue) : (JSValue.arr xs).items = xs := rfl

theorem truthy_arr (xs : List JSValue) : (JSValue.arr xs).truthy = true := rfl

theorem jsAnd_bool_truthy (d : JSValue) (b : Bool) :
    (jsAnd d (.bool b)).truthy = (d.truthy && b) := by
  unfold jsAnd
  cases h : d.truthy <;> simp [h, truthy_bool]

theorem locate_of_array (xs : List JSValue) :
    ConvertData.locate (.arr xs) = .ok (some xs) := rfl

theorem locate_of_drugs (data : JSValue) (xs : List JSValue)
    (ha : data.isArray = false) (hd : data.prop "drugs" = .arr xs) :
    ConvertData.locate data = .ok (some xs) := by
  obtain ⟨ps, rfl⟩ := prop_isArray_imp_obj data "drugs" (by rw [hd]; rfl)
  simp [ConvertData.locate, ha, getProp, jsAnd_bool_truthy, truthy_arr, hd, isArray_arr, items_arr]

theorem locate_of_data (data : JSValue) (xs : List JSValue)
    (ha : data.isArray = false) (hd : (data.prop "drugs").isArray = false)
    (hx : data.prop "data" = .arr xs) :
    ConvertData.locate data = .ok (some xs) := by
  obtain ⟨ps, rfl⟩ := prop_isArray_imp_obj data "data" (by rw [hx]; rfl)
  simp [ConvertData.locate, ha, getProp, jsAnd_bool_truthy, truthy_arr, hd, hx, isArray_arr,
    items_arr]

theorem detect_of_array (xs : List JSValue) : InitDb.detect (.arr xs) = .ok xs := rfl

theorem detect_of_drugs (data : JSValue) (xs : List JSValue)
    (ha : data.isArray = false) (hd : data.prop "drugs" = .arr xs) :
    InitDb.detect data = .ok xs := by
  obtain ⟨ps, rfl⟩ := prop_isArray_imp_obj data "drugs" (by rw [hd]; rfl)
  simp [InitDb.detect, ha, getProp, jsAnd_bool_truthy, truthy_arr, hd, isArray_arr, items_arr]

theorem detect_of_data (data : JSValue) (xs : List JSValue)
    (ha : data.isArray = false) (hd : (data.prop "drugs").isArray = false)
    (hx : data.prop "data" = .arr xs) :
    InitDb.detect data = .ok xs := by
  obtain ⟨ps, rfl⟩ := prop_isArray_imp_obj data "data" (by rw [hx]; rfl)
  simp [InitDb.detect, ha, getProp, jsAnd_bool_truthy, truthy_arr, hd, hx, isArray_arr, items_arr]

theorem run_of_locate {data : JSValue} {xs : List JSValue}
    (h : ConvertData.locate data = .ok (some xs)) (clock : Nat → String) :
    ConvertData.run data clock = ConvertData.run (.arr xs) clock := by
  simp [ConvertData.run, h, locate_of_array]

theorem inserted_of_detect {data : JSValue} {xs : List JSValue}
    (h : InitDb.detect data = .ok xs) (clock : Nat → String) :
    InitDb.inserted (.parsed data) clock = InitDb.inserted (.parsed (.arr xs)) clock := by
  simp [InitDb.inserted, InitDb.drugsToInsert, h, detect_of_array]

/-- C4: in both scripts the record array is the parsed value itself when that is an array;
otherwise its `drugs` property when that is an array; otherwise its `data` property when
that is an array.  Hence for every array A the runs on A, on the object with `drugs` = A and
on the object with `data` = A give the same warnings and the same valid records, and an
object with a `drugs` array and a `data` array is ingested from `drugs`. -/
theorem C4_locate_array (data : JSValue) (xs : List JSValue) (clock : Nat → String) :
    (data = .arr xs →
      ConvertData.locate data = .ok (some xs) ∧ InitDb.drugsToInsert (.parsed data) = xs) ∧
    (data.isArray = false → data.prop "drugs" = .arr xs →
      ConvertData.locate data = .ok (some xs) ∧ InitDb.drugsToInsert (.parsed data) = xs ∧
      ConvertData.run data clock = ConvertData.run (.arr xs) clock ∧
      InitDb.inserted (.parsed data) clock = InitDb.inserted (.parsed (.arr xs)) clock) ∧
    (data.isArray = false → (data.prop "drugs").isArray = false →
      data.prop "data" = .arr xs →
      ConvertData.locate data = .ok (some xs) ∧ InitDb.drugsToInsert (.parsed data) = xs ∧
      ConvertData.run data clock = ConvertData.run (.arr xs) clock ∧
      InitDb.inserted (.parsed data) clock = InitDb.inserted (.parsed (.arr xs)) clock) ∧
    ConvertData.run (.obj [("drugs", .arr xs)]) clock = ConvertData.run (.arr xs) clock ∧
    ConvertData.run (.obj [("data", .arr xs)]) clock = ConvertData.run (.arr xs) clock ∧
    InitDb.inserted (.parsed (.obj [("drugs", .arr xs)])) clock
      = InitDb.inserted (.parsed (.arr xs)) clock ∧
    InitDb.inserted (.parsed (.obj [("data", .arr xs)])) clock
      = InitDb.inserted (.parsed (.arr xs)) clock ∧
    (∀ ys : List JSValue,
      ConvertData.run (.obj [("data", .arr ys), ("drugs", .arr xs)]) clock
        = ConvertData.run (.arr xs) clock ∧
      InitDb.inserted (.parsed (.obj [("data", .arr ys), ("drugs", .arr xs)])) clock
        = InitDb.inserted (.parsed (.arr xs)) clock) := by
  refine ⟨?_, ?_, ?_, ?_, ?_, ?_, ?_, ?_⟩
  · rintro rfl
    exact ⟨rfl, rfl⟩
  · intro ha hd
    exact ⟨locate_of_drugs _ _ ha hd,
      by simp [InitDb.drugsToInsert, detect_of_drugs _ _ ha hd],
      run_of_locate (locate_of_drugs _ _ ha hd) clock,
      inserted_of_detect (detect_of_drugs _ _ ha hd) clock⟩
  · intro ha hd hx
    exact ⟨locate_of_data _ _ ha hd hx,
      by simp [InitDb.drugsToInsert, detect_of_data _ _ ha hd hx],
      run_of_locate (locate_of_data _ _ ha hd hx) clock,
      inserted_of_detect (detect_of_data _ _ ha hd hx) clock⟩
  · exact run_of_locate (locate_of_drugs (.obj [("drugs", .arr xs)]) xs rfl rfl) clock
  · exact run_of_locate (locate_of_data (.obj [("data", .arr xs)]) xs rfl rfl rfl) clock
  · exact inserted_of_detect (detect_of_drugs (.obj [("drugs", .arr xs)]) xs rfl rfl) clock
  · exact inserted_of_detect (detect_of_data (.obj [("data", .arr xs)]) xs rfl rfl rfl) clock
  · intro ys
    exact ⟨run_of_locate
        (locate_of_drugs (.obj [("data", .arr ys), ("drugs", .arr xs)]) xs rfl rfl) clock,
      inserted_of_detect
        (detect_of_drugs (.obj [("data", .arr ys), ("drugs", .arr xs)]) xs rfl rfl) clock⟩

/-- Witness for C4: an object with other keys before `data` is ingested from `data`. -/
theorem C4_locate_array_witness :
    ConvertData.locate (.obj [("count", .num (.fin 1)),
        ("data", .arr [.obj [("genericName", .str "x")]])])
      = .ok (some [.obj [("genericName", .str "x")]]) :=
  ((C4_locate_array (.obj [("count", .num (.fin 1)),
      ("data", .arr [.obj [("genericName", .str "x")]])])
    [.obj [("genericName", .str "x")]] (fun _ => "t")).2.2.1 rfl rfl rfl).1

theorem validatedDrugs_sample (clock : Nat → String) :
    InitDb.validatedDrugs clock InitDb.sampleDrugs = ([], .ok
      [ { code := .str "0006-0568", genericName := .str "vorinostat",
          brandName := .str "ZOLINZA", company := .str "Merck Sharp & Dohme Corp.",
          launchDate := .str "2004-02-14T23:01:10Z" },
        { code := .str "0006-1234", genericName := .str "imatinib",
          brandName := .str "GLEEVEC",
          company := .str "Novartis Pharmaceuticals Corporation",
          launchDate := .str "2001-05-10T00:00:00Z" },
        { code := .str "0006-5678", genericName := .str "trastuzumab",
          brandName := .str "HERCEPTIN", company := .str "Genentech, Inc.",
          launchDate := .str "1998-09-25T00:00:00Z" } ]) := rfl

/-- C5 as stated fails for init-db: on the object with no property at all the script
does not fail, it loads its three sample records. -/
theorem C5_init_db_loads_sample_data :
    InitDb.inserted (.parsed (.obj [])) (fun _ => "t") = ([], .ok
      [ { code := .str "0006-0568", genericName := .str "vorinostat",
          brandName := .str "ZOLINZA", company := .str "Merck Sharp & Dohme Corp.",
          launchDate := .str "2004-02-14T23:01:10Z" },
        { code := .str "0006-1234", genericName := .str "imatinib",
          brandName := .str "GLEEVEC",
          company := .str "Novartis Pharmaceuticals Corporation",
          launchDate := .str "2001-05-10T00:00:00Z" },
        { code := .str "0006-5678", genericName := .str "trastuzumab",
          brandName := .str "HERCEPTIN", company := .str "Genentech, Inc.",
          launchDate := .str "1998-09-25T00:00:00Z" } ]) := rfl

/-- C5, amended: for every parsed value that is not an array and has neither a `drugs`
array nor a `data` array, convert-data ends in `process.exit(1)` with nothing written and
no warning printed, while init-db takes its sample data and hands exactly the three sample
records to the INSERT statement. -/
theorem C5_unrecognised_structure (data : JSValue) (clock : Nat → String)
    (ha : data.isArray = false) (hd : (data.prop "drugs").isArray = false)
    (hx : (data.prop "data").isArray = false) :
    ConvertData.run data clock = ([], .exit1) ∧
    InitDb.drugsToInsert (.parsed data) = InitDb.sampleDrugs ∧
    InitDb.inserted (.parsed data) clock
      = InitDb.validatedDrugs clock InitDb.sampleDrugs ∧
    (InitDb.validatedDrugs clock InitDb.sampleDrugs).1 = [] ∧
    ∃ ds : List CanonicalDrug,
      (InitDb.validatedDrugs clock InitDb.sampleDrugs).2 = .ok ds ∧ ds.length = 3 := by
  have h1 : InitDb.drugsToInsert (.parsed data) = InitDb.sampleDrugs := by
    cases data <;>
      simp_all [InitDb.drugsToInsert, InitDb.detect, getProp, jsAnd_bool_truthy]
  refine ⟨?_, h1, ?_, ?_, ?_⟩
  · cases data <;>
      simp_all [ConvertData.run, ConvertData.locate, getProp, jsAnd_bool_truthy]
  · simp [InitDb.inserted, h1]
  · rw [validatedDrugs_sample]
  · rw [validatedDrugs_sample]
    exact ⟨_, rfl, rfl⟩

/-- Witness for C5: an object whose `drugs` property is a string. -/
theorem C5_unrecognised_structure_witness :
    ConvertData.run (.obj [("drugs", .str "none")]) (fun _ => "t") = ([], .exit1) ∧
    InitDb.drugsToInsert (.parsed (.obj [("drugs", .str "none")])) = InitDb.sampleDrugs :=
  have h := C5_unrecognised_structure (.obj [("drugs", .str "none")]) (fun _ => "t")
    rfl rfl rfl
  ⟨h.1, h.2.1⟩

theorem convertedDrugs_spec (clock : Nat → String) (drugs : List JSValue)
    (h : ∀ d ∈ drugs, d ≠ .null ∧ d ≠ .undefined) (start : Nat) :
    ∃ cs : List CanonicalDrug,
      ConvertData.convertedDrugs clock start drugs
        = (ConvertData.expectedWarnings start drugs cs, .ok cs) ∧
      cs.length = drugs.length ∧
      (∀ i d, drugs[i]? = some d → ∃ c, cs[i]? = some c ∧
        ConvertData.convert d (start + i) (clock (start + i)) = .ok c) ∧
      (cs.filter isValid).length + (ConvertData.expectedWarnings start drugs cs).length
        = drugs.length := by
  induction drugs generalizing start with
  | nil =>
    exact ⟨[], rfl, rfl, by intro i d hd; simp at hd, rfl⟩
  | cons d rest ih =>
    have hd := h d (List.mem_cons_self d rest)
    obtain ⟨cs, hrun, hlen, hpt, hcount⟩ :=
      ih (fun x hx => h x (List.mem_cons_of_mem d hx)) (start + 1)
    obtain ⟨c0, hc0⟩ : ∃ c0, ConvertData.convert d start (clock start) = .ok c0 :=
      ⟨_, convert_eq_ok hd.1 hd.2 start (clock start)⟩
    refine ⟨c0 :: cs, ?_, by simp [hlen], ?_, ?_⟩
    · simp only [ConvertData.convertedDrugs, hc0, hrun, missingRequired_eq_not_isValid]
      cases hv : isValid c0 <;>
        simp [ConvertData.expectedWarnings, List.enumFrom, hv]
    · intro i x hx
      cases i with
      | zero =>
        simp only [List.getElem?_cons_zero, Option.some.injEq] at hx
        subst hx
        exact ⟨c0, by simp, by simpa using hc0⟩
      | succ j =>
        simp only [List.getElem?_cons_succ] at hx
        obtain ⟨c, hc, hconv⟩ := hpt j x hx
        refine ⟨c, by simpa using hc, ?_⟩
        have e : start + (j + 1) = start + 1 + j := by omega
        rw [e]
        exact hconv
    · have hw : ConvertData.expectedWarnings start (d :: rest) (c0 :: cs)
          = (if isValid c0 then []
              else [{ recordNumber := start + 1, original := d, converted := c0 }])
            ++ ConvertData.expectedWarnings (start + 1) rest cs := by
        cases hv : isValid c0 <;>
          simp [ConvertData.expectedWarnings, List.enumFrom, hv]
      rw [hw]
      cases hv : isValid c0 <;> simp [List.filter_cons, hv] <;> omega

theorem normalizedDrugs_spec (clock : Nat → String) (drugs : List JSValue)
    (h : ∀ d ∈ drugs, d ≠ .null ∧ d ≠ .undefined) (start : Nat) :
    ∃ ds : List CanonicalDrug,
      InitDb.normalizedDrugs clock start drugs
        = (InitDb.expectedWarnings start drugs ds, .ok ds) ∧
      ds.length = drugs.length ∧
      (∀ i d, drugs[i]? = some d → ∃ c, ds[i]? = some c ∧
        InitDb.normalize d (start + i) (clock (start + i)) = .ok c) ∧
      (ds.filter isValid).length + (InitDb.expectedWarnings start drugs ds).length
        = drugs.length := by
  induction drugs generalizing start with
  | nil =>
    exact ⟨[], rfl, rfl, by intro i d hd; simp at hd, rfl⟩
  | cons d rest ih =>
    have hd := h d (List.mem_cons_self d rest)
    obtain ⟨ds, hrun, hlen, hpt, hcount⟩ :=
      ih (fun x hx => h x (List.mem_cons_of_mem d hx)) (start + 1)
    obtain ⟨c0, hc0⟩ : ∃ c0, InitDb.normalize d start (clock start) = .ok c0 :=
      ⟨_, normalize_eq_ok hd.1 hd.2 start (clock start)⟩
    refine ⟨c0 :: ds, ?_, by simp [hlen], ?_, ?_⟩
    · simp only [InitDb.normalizedDrugs, hc0, hrun, missingRequired_eq_not_isValid]
      cases hv : isValid c0 <;>
        simp [InitDb.expectedWarnings, List.enumFrom, hv]
    · intro i x hx
      cases i with
      | zero =>
        simp only [List.getElem?_cons_zero, Option.some.injEq] at hx
        subst hx
        exact ⟨c0, by simp, by simpa using hc0⟩
      | succ j =>
        simp only [List.getElem?_cons_succ] at hx
        obtain ⟨c, hc, hconv⟩ := hpt j x hx
        refine ⟨c, by simpa using hc, ?_⟩
        have e : start + (j + 1) = start + 1 + j := by omega
        rw [e]
        exact hconv
    · have hw : InitDb.expectedWarnings start (d :: rest) (c0 :: ds)
          = (if isValid c0 then []
              else [{ index := start, normalizedDrug := c0 }])
            ++ InitDb.expectedWarnings (start + 1) rest ds := by
        cases hv : isValid c0 <;>
          simp [InitDb.expectedWarnings, List.enumFrom, hv]
      rw [hw]
      cases hv : isValid c0 <;> simp [List.filter_cons, hv] <;> omega

/-- C6 as stated fails for init-db: its warning carries the index and the normalised
record only, so two different originals with the same normalised form leave the same
report; the original form is not reported.  And an array with a `null` element is not
partitioned at all: the map raises, convert-data writes nothing. -/
theorem C6_init_db_report_omits_original :
    (InitDb.inserted (.parsed (.arr [.obj [("genericName", .str "x")]])) (fun _ => "t")).1
      = (InitDb.inserted (.parsed (.arr [.obj [("generic", .str "x")]])) (fun _ => "t")).1 ∧
    JSValue.obj [("genericName", .str "x")] ≠ JSValue.obj [("generic", .str "x")] ∧
    ConvertData.run (.arr [.obj [("genericName", .str "x")], .null]) (fun _ => "t")
      = ([{ recordNumber := 1, original := .obj [("genericName", .str "x")],
            converted :=
              { code := .str "DRUG-1", genericName := .str "x", brandName := .str "",
                company := .str "", launchDate := .str "t" } }],
         .exit1) := by
  refine ⟨rfl, ?_, rfl⟩
  intro h
  injection h with h
  injection h with h _
  injection h with h _
  exact absurd h (by decide)

/-- C6, amended: for every located array whose elements are not null, both scripts
normalise every element with its own zero-based position; the valid output is the
normalised records that pass the validity check, in the original order; every other
record is reported exactly once, in order: by convert-data with its one-based record
number, its original and its converted form, by init-db with its zero-based index and its
normalised form; and valid count + reported count = total count.  For the input with the
single record that has only genericName "x", both give no valid record and one report, for
the element at index 0. -/
theorem C6_ingest_partition (drugs : List JSValue) (clock : Nat → String)
    (h : ∀ d ∈ drugs, d ≠ .null ∧ d ≠ .undefined) :
    (∃ cs : List CanonicalDrug,
      cs.length = drugs.length ∧
      (∀ i d, drugs[i]? = some d → ∃ c, cs[i]? = some c ∧
        ConvertData.convert d i (clock i) = .ok c) ∧
      ConvertData.run (.arr drugs) clock
        = (ConvertData.expectedWarnings 0 drugs cs, .written (cs.filter isValid)) ∧
      (cs.filter isValid).Sublist cs ∧
      (cs.filter isValid).length + (ConvertData.expectedWarnings 0 drugs cs).length
        = drugs.length) ∧
    (∃ ds : List CanonicalDrug,
      ds.length = drugs.length ∧
      (∀ i d, drugs[i]? = some d → ∃ c, ds[i]? = some c ∧
        InitDb.normalize d i (clock i) = .ok c) ∧
      InitDb.inserted (.parsed (.arr drugs)) clock
        = (InitDb.expectedWarnings 0 drugs ds, .ok (ds.filter isValid)) ∧
      (ds.filter isValid).Sublist ds ∧
      (ds.filter isValid).length + (InitDb.expectedWarnings 0 drugs ds).length
        = drugs.length) ∧
    ConvertData.run (.arr [.obj [("genericName", .str "x")]]) clock
      = ([{ recordNumber := 1, original := .obj [("genericName", .str "x")],
            converted :=
              { code := .str "DRUG-1", genericName := .str "x", brandName := .str "",
                company := .str "", launchDate := .str (clock 0) } }],
         .written []) ∧
    InitDb.inserted (.parsed (.arr [.obj [("genericName", .str "x")]])) clock
      = ([{ index := 0,
            normalizedDrug :=
              { code := .str "DRUG-1", genericName := .str "x", brandName := .str "",
                company := .str "", launchDate := .str (clock 0) } }],
         .ok []) := by
  refine ⟨?_, ?_, rfl, rfl⟩
  · obtain ⟨cs, hrun, hlen, hpt, hcount⟩ := convertedDrugs_spec clock drugs h 0
    refine ⟨cs, hlen, ?_, ?_, List.filter_sublist cs, hcount⟩
    · intro i d hd
      simpa using hpt i d hd
    · simp [ConvertData.run, locate_of_array, hrun, ConvertData.validDrugs]
  · obtain ⟨ds, hrun, hlen, hpt, hcount⟩ := normalizedDrugs_spec clock drugs h 0
    refine ⟨ds, hlen, ?_, ?_, List.filter_sublist ds, hcount⟩
    · intro i d hd
      simpa using hpt i d hd
    · simp [InitDb.inserted, InitDb.drugsToInsert, detect_of_array, InitDb.validatedDrugs,
        hrun]

/-- Witness for C6: a valid record followed by an invalid one. -/
theorem C6_ingest_partition_witness :
    ∃ cs : List CanonicalDrug,
      cs.length = 2 ∧
      ConvertData.run (.arr [.obj [("generic", .str "x"), ("brand", .str "Y"),
          ("manufacturer", .str "Z")], .obj [("brand", .str "W")]]) (fun _ => "t")
        = (ConvertData.expectedWarnings 0 [.obj [("generic", .str "x"), ("brand", .str "Y"),
            ("manufacturer", .str "Z")], .obj [("brand", .str "W")]] cs,
           .written (cs.filter isValid)) := by
  obtain ⟨⟨cs, hlen, _, hrun, _⟩, _⟩ := C6_ingest_partition
    [.obj [("generic", .str "x"), ("brand", .str "Y"), ("manufacturer", .str "Z")],
      .obj [("brand", .str "W")]] (fun _ => "t")
    (by
      intro d hd
      simp only [List.mem_cons, List.mem_singleton, List.mem_nil_iff, or_false] at hd
      rcases hd with rfl | rfl <;> exact ⟨(fun h => by cases h), (fun h => by cases h)⟩)
  exact ⟨cs, hlen, hrun⟩

/-- C7 as stated fails: the record with no property, normalised at index 0 at two
different times, gets two different launchDate values, in both scripts. -/
theorem C7_launchDate_depends_on_clock :
    (∃ c1 c2 : CanonicalDrug,
      ConvertData.convert (.obj []) 0 "2024-01-01T00:00:00.000Z" = .ok c1 ∧
      ConvertData.convert (.obj []) 0 "2024-01-02T00:00:00.000Z" = .ok c2 ∧
      c1.launchDate ≠ c2.launchDate) ∧
    (∃ d1 d2 : CanonicalDrug,
      InitDb.normalize (.obj []) 0 "2024-01-01T00:00:00.000Z" = .ok d1 ∧
      InitDb.normalize (.obj []) 0 "2024-01-02T00:00:00.000Z" = .ok d2 ∧
      d1.launchDate ≠ d2.launchDate) := by
  have hne : JSValue.str "2024-01-01T00:00:00.000Z" ≠ JSValue.str "2024-01-02T00:00:00.000Z" := by
    intro h
    injection h with h
    exact absurd h (by decide)
  exact ⟨⟨_, _, rfl, rfl, hne⟩, ⟨_, _, rfl, rfl, hne⟩⟩

/-- C7, amended: for every raw record and index, two runs of a normaliser at any two clock
readings produce the same code, genericName, brandName and company; they produce the same
launchDate, hence the same record, when one of the launchDate aliases has a truthy value or
the two clock readings are equal; with no truthy launchDate alias each run records its own
clock reading. -/
theorem C7_deterministic_up_to_clock (drug : JSValue) (index : Nat) (now1 now2 : String)
    (hn : drug ≠ .null) (hu : drug ≠ .undefined) :
    (∃ c1 c2 : CanonicalDrug,
      ConvertData.convert drug index now1 = .ok c1 ∧
      ConvertData.convert drug index now2 = .ok c2 ∧
      c1.code = c2.code ∧ c1.genericName = c2.genericName ∧ c1.brandName = c2.brandName ∧
      c1.company = c2.company ∧
      ((∃ k ∈ ["launchDate", "launch_date", "date"], (drug.prop k).truthy = true) →
        c1 = c2) ∧
      (now1 = now2 → c1 = c2) ∧
      ((∀ k ∈ ["launchDate", "launch_date", "date"], (drug.prop k).truthy = false) →
        c1.launchDate = .str now1 ∧ c2.launchDate = .str now2)) ∧
    (∃ d1 d2 : CanonicalDrug,
      InitDb.normalize drug index now1 = .ok d1 ∧
      InitDb.normalize drug index now2 = .ok d2 ∧
      d1.code = d2.code ∧ d1.genericName = d2.genericName ∧ d1.brandName = d2.brandName ∧
      d1.company = d2.company ∧
      ((∃ k ∈ ["launchDate", "launch_date", "date"], (drug.prop k).truthy = true) →
        d1 = d2) ∧
      (now1 = now2 → d1 = d2) ∧
      ((∀ k ∈ ["launchDate", "launch_date", "date"], (drug.prop k).truthy = false) →
        d1.launchDate = .str now1 ∧ d2.launchDate = .str now2)) := by
  have key : (∃ k ∈ ["launchDate", "launch_date", "date"], (drug.prop k).truthy = true) →
      firstTruthyAlias drug ["launchDate", "launch_date", "date"] (.str now1)
        = firstTruthyAlias drug ["launchDate", "launch_date", "date"] (.str now2) := by
    rintro ⟨k, hk, ht⟩
    unfold firstTruthyAlias
    cases hf : List.find? (fun k => (drug.prop k).truthy) ["launchDate", "launch_date", "date"]
    · rw [List.find?_eq_none] at hf
      exact absurd ht (by simpa using hf k hk)
    · rfl
  constructor
  · refine ⟨_, _, convert_eq_ok hn hu index now1, convert_eq_ok hn hu index now2,
      rfl, rfl, rfl, rfl, ?_, ?_, ?_⟩
    · intro hk
      rw [key hk]
    · rintro rfl
      rfl
    · intro hall
      exact ⟨firstTruthyAlias_none _ _ _ hall, firstTruthyAlias_none _ _ _ hall⟩
  · refine ⟨_, _, normalize_eq_ok hn hu index now1, normalize_eq_ok hn hu index now2,
      rfl, rfl, rfl, rfl, ?_, ?_, ?_⟩
    · intro hk
      rw [key hk]
    · rintro rfl
      rfl
    · intro hall
      exact ⟨firstTruthyAlias_none _ _ _ hall, firstTruthyAlias_none _ _ _ hall⟩

/-- Witness for C7: a record with a `date` is normalised alike at two different times. -/
theorem C7_deterministic_up_to_clock_witness :
    ∃ c1 c2 : CanonicalDrug,
      ConvertData.convert (.obj [("date", .str "2001-05-10")]) 3 "t1" = .ok c1 ∧
      ConvertData.convert (.obj [("date", .str "2001-05-10")]) 3 "t2" = .ok c2 ∧
      c1 = c2 := by
  obtain ⟨⟨c1, c2, h1, h2, _, _, _, _, hk, _⟩, _⟩ := C7_deterministic_up_to_clock
    (.obj [("date", .str "2001-05-10")]) 3 "t1" "t2"
    (by intro h; cases h) (by intro h; cases h)
  exact ⟨c1, c2, h1, h2, hk ⟨"date", by simp, rfl⟩⟩

theorem toDouble_of_nat (n : ℕ) (h : n ≤ 9007199254740992) :
    toDouble (n : ℚ) = .fin (n : ℚ) := by
  unfold toDouble
  rw [if_pos]
  exact ⟨Rat.den_natCast n, by simpa using h⟩

set_option exponentiation.threshold 1100 in
theorem toDouble_natCast_large (n : ℕ) (hn : 9007199254740992 < n) (k : ℕ)
    (hk : bitLength n = k + 53) (hle : 2 ^ (k + 52) ≤ n)
    (hsmall : roundHalfEven n (2 ^ k) * 2 ^ k < 2 ^ 200) :
    toDouble (n : ℚ) = .fin ((roundHalfEven n (2 ^ k) * 2 ^ k : ℕ) : ℚ) := by
  have hover : ¬ 2 ^ 1024 ≤ roundHalfEven n (2 ^ k) * 2 ^ k :=
    Nat.not_le.2 (lt_of_lt_of_le hsmall
      (Nat.pow_le_pow_right (show 0 < 2 by decide) (show 200 ≤ 1024 by decide)))
  have hb1 : bitLength 1 = 1 := by decide
  have hlt : ¬ (n ≤ 9007199254740992) := by omega
  have hc : ((k + 53 : ℕ) : ℤ) - ((1 : ℕ) : ℤ) = ((k + 52 : ℕ) : ℤ) := by push_cast; ring
  have hneg : (-((k + 52 : ℕ) : ℤ)).toNat = 0 := by simp; omega
  have he : max (((k + 52 : ℕ) : ℤ) - 52) (-1074) = ((k : ℕ) : ℤ) := by
    have : ((k + 52 : ℕ) : ℤ) - 52 = (k : ℤ) := by push_cast; ring
    rw [this]
    exact max_eq_left (by omega)
  have hnegk : (-((k : ℕ) : ℤ)).toNat = 0 := by simp
  have hq : ¬ ((n : ℚ) < 0) := by
    have : (0 : ℚ) ≤ n := Nat.cast_nonneg n
    linarith
  simp only [toDouble, Rat.den_natCast, Rat.num_natCast, Int.natAbs_ofNat, hlt, and_false,
    if_false, hk, hb1, hc, Int.toNat_ofNat, hneg, pow_zero, mul_one, one_mul, hle, if_true,
    he, hnegk, hover, hq]
  congr 1
  push_cast
  simp [zpow_natCast]

theorem mathMax_one_eq_fin (x : JSNum) (q : ℚ) (h : Server.mathMax (.fin 1) x = .fin q) :
    1 ≤ q := by
  cases x with
  | nan => simp [Server.mathMax] at h
  | posInf => simp [Server.mathMax] at h
  | negInf =>
    simp [Server.mathMax] at h
    rw [← h]
  | fin a =>
    simp only [Server.mathMax, JSNum.fin.injEq] at h
    rw [← h]
    exact le_max_left 1 a

theorem pageNum_fin_ge_one (page : Option String) (q : ℚ)
    (h : Server.pageNum page = .fin q) : 1 ≤ q :=
  mathMax_one_eq_fin _ q h

theorem limitNum_fin_bounds (limit : Option String) (q : ℚ)
    (h : Server.limitNum limit = .fin q) : 1 ≤ q ∧ q ≤ 100 := by
  unfold Server.limitNum at h
  cases hx : Server.mathMax (.fin 1) (Server.parseInt (limit.getD "50")) with
  | nan => rw [hx] at h; simp [Server.mathMin] at h
  | posInf =>
    rw [hx] at h
    simp [Server.mathMin] at h
    rw [← h]
    norm_num
  | negInf => rw [hx] at h; simp [Server.mathMin] at h
  | fin a =>
    have ha := mathMax_one_eq_fin _ a hx
    rw [hx] at h
    simp only [Server.mathMin, JSNum.fin.injEq] at h
    rw [← h]
    exact ⟨le_min (by norm_num) ha, min_le_left 100 a⟩

theorem ceil_div_eq (t l : ℕ) (hl : 1 ≤ l) :
    ⌈(t : ℚ) / (l : ℚ)⌉ = (((t + l - 1) / l : ℕ) : ℤ) := by
  have hlq : (0 : ℚ) < l := by exact_mod_cast hl
  have h1 : t ≤ (t + l - 1) / l * l := by
    have h := @Nat.lt_div_mul_add (t + l - 1) l hl
    omega
  have h2 : (t + l - 1) / l * l < t + l := by
    have h := Nat.div_mul_le_self (t + l - 1) l
    omega
  generalize (t + l - 1) / l = q at h1 h2
  have h1q : (t : ℚ) ≤ (q : ℚ) * l := by exact_mod_cast h1
  have h2q : (q : ℚ) * l < t + l := by exact_mod_cast h2
  rw [Int.ceil_eq_iff, Int.cast_natCast]
  constructor
  · rw [lt_div_iff₀ hlq]
    linarith
  · rw [div_le_iff₀ hlq]
    exact h1q

/-- C8, the failing input: with `page=abc` (and likewise `limit=abc`) the normalised page,
limit and offset are `NaN`, not integers in range, and the request ends in a 500 response
for every table and filter. -/
theorem C8_non_numeric_page_gives_nan :
    Server.pageNum (some "abc") = .nan ∧
    Server.limitNum (some "abc") = .nan ∧
    Server.offset (some "abc") none = .nan ∧
    Server.offset none (some "abc") = .nan ∧
    (∀ (table : List Server.Row) (company : Option String),
      Server.getDrugs table company (some "abc") none = .serverError) := by
  have h1 : Server.pageNum (some "abc") = .nan := by decide
  have h2 : Server.limitNum (some "abc") = .nan := by decide
  have h3 : Server.offset (some "abc") none = .nan := by
    simp [Server.offset, h1, Server.jsSub, Server.jsMul]
  have h4 : Server.offset none (some "abc") = .nan := by
    rw [Server.offset, h2]
    cases Server.jsSub (Server.pageNum none) (.fin 1) <;> rfl
  refine ⟨h1, h2, h3, h4, ?_⟩
  intro table company
  simp [Server.getDrugs, h3, Server.selectRows]

/-- C9: for every count totalRecords >= 0, every page and every limit >= 1 (so for every
page >= 1 and limit in [1,100]), the pagination object has totalPages = ceil(totalRecords / limit), which is the integer quotient
(totalRecords + limit - 1) / limit, currentPage = page, limit = limit, totalRecords as
counted, hasNextPage true exactly when currentPage < totalPages, and hasPrevPage true
exactly when currentPage > 1. -/
theorem C9_pagination (totalRecords page limit : ℕ) (hl : 1 ≤ limit) :
    Server.pagination (.fin totalRecords) (.fin page) (.fin limit)
      = { currentPage := .fin page,
          totalPages := .fin (⌈(totalRecords : ℚ) / (limit : ℚ)⌉ : ℤ),
          totalRecords := .fin totalRecords,
          limit := .fin limit,
          hasNextPage := decide ((page : ℤ) < ⌈(totalRecords : ℚ) / (limit : ℚ)⌉),
          hasPrevPage := decide (1 < page) } ∧
    ⌈(totalRecords : ℚ) / (limit : ℚ)⌉ = (((totalRecords + limit - 1) / limit : ℕ) : ℤ) ∧
    ((Server.pagination (.fin totalRecords) (.fin page) (.fin limit)).hasNextPage = true ↔
      (page : ℤ) < ⌈(totalRecords : ℚ) / (limit : ℚ)⌉) ∧
    ((Server.pagination (.fin totalRecords) (.fin page) (.fin limit)).hasPrevPage = true ↔
      1 < page) := by
  have hl0 : (limit : ℚ) ≠ 0 := by
    have : (0 : ℚ) < limit := by exact_mod_cast hl
    exact ne_of_gt this
  have hnext : decide ((page : ℚ) < ((⌈(totalRecords : ℚ) / (limit : ℚ)⌉ : ℤ) : ℚ))
      = decide ((page : ℤ) < ⌈(totalRecords : ℚ) / (limit : ℚ)⌉) := by
    congr 1
    rw [← Int.cast_natCast page, Int.cast_lt]
  have hprev : decide ((1 : ℚ) < (page : ℚ)) = decide (1 < page) := by
    congr 1
    exact propext Nat.one_lt_cast
  have heq : Server.pagination (.fin totalRecords) (.fin page) (.fin limit)
      = { currentPage := .fin page,
          totalPages := .fin (⌈(totalRecords : ℚ) / (limit : ℚ)⌉ : ℤ),
          totalRecords := .fin totalRecords,
          limit := .fin limit,
          hasNextPage := decide ((page : ℤ) < ⌈(totalRecords : ℚ) / (limit : ℚ)⌉),
          hasPrevPage := decide (1 < page) } := by
    simp only [Server.pagination, Server.jsDiv, hl0, if_false, Server.mathCeil, Server.jsLt,
      Server.jsGt, hnext, hprev]
  refine ⟨heq, ceil_div_eq totalRecords limit hl, ?_, ?_⟩
  · rw [heq]
    simp
  · rw [heq]
    simp

/-- Witness for C9: 45 matching rows, page 2, limit 10: five pages, a next and a
previous page. -/
theorem C9_pagination_witness :
    Server.pagination (.fin 45) (.fin 2) (.fin 10)
      = { currentPage := .fin 2, totalPages := .fin 5, totalRecords := .fin 45,
          limit := .fin 10, hasNextPage := true, hasPrevPage := true } := by
  have h := C9_pagination 45 2 10 (by decide)
  have hc : ⌈((45 : ℕ) : ℚ) / ((10 : ℕ) : ℚ)⌉ = 5 := by
    rw [h.2.1]
    rfl
  have h1 := h.1
  rw [hc] at h1
  simpa using h1

theorem matching_eq_nil (table : List Server.Row) (c : String) (hc : c ≠ "")
    (hnone : ∀ r ∈ table, r.company ≠ c) : Server.matching table (some c) = [] := by
  simp only [Server.matching, hc, ne_eq, not_false_eq_true, if_true]
  rw [List.filter_eq_nil_iff]
  intro r hr
  simpa using hnone r hr

theorem pagination_of_nat (totalRecords page limit : ℕ) (hl : 1 ≤ limit) :
    Server.pagination (.fin totalRecords) (.fin page) (.fin limit)
      = { currentPage := .fin page,
          totalPages := .fin (⌈(totalRecords : ℚ) / (limit : ℚ)⌉ : ℤ),
          totalRecords := .fin totalRecords,
          limit := .fin limit,
          hasNextPage := decide ((page : ℤ) < ⌈(totalRecords : ℚ) / (limit : ℚ)⌉),
          hasPrevPage := decide (1 < page) } := by
  have hl0 : (limit : ℚ) ≠ 0 := by
    have : (0 : ℚ) < limit := by exact_mod_cast hl
    exact ne_of_gt this
  have hnext : decide ((page : ℚ) < ((⌈(totalRecords : ℚ) / (limit : ℚ)⌉ : ℤ) : ℚ))
      = decide ((page : ℤ) < ⌈(totalRecords : ℚ) / (limit : ℚ)⌉) := by
    congr 1
    rw [← Int.cast_natCast page, Int.cast_lt]
  have hprev : decide ((1 : ℚ) < (page : ℚ)) = decide (1 < page) := by
    congr 1
    exact propext Nat.one_lt_cast
  simp only [Server.pagination, Server.jsDiv, hl0, if_false, Server.mathCeil, Server.jsLt,
    Server.jsGt, hnext, hprev]

theorem pagination_zero (p l : ℕ) (hp : 1 ≤ p) (hl : 1 ≤ l) :
    Server.pagination (.fin ((0 : ℕ) : ℚ)) (.fin (p : ℚ)) (.fin (l : ℚ))
      = { currentPage := .fin (p : ℚ), totalPages := .fin 0, totalRecords := .fin 0,
          limit := .fin (l : ℚ), hasNextPage := false, hasPrevPage := decide (1 < p) } := by
  rw [pagination_of_nat 0 p l hl]
  have hnot : ¬ ((p : ℤ) < 0) := by omega
  simp [hnot]

theorem nat_bounds_of_fin (page limit : Option String) (p l : ℕ)
    (hp : Server.pageNum page = .fin (p : ℚ)) (hl : Server.limitNum limit = .fin (l : ℚ)) :
    1 ≤ p ∧ 1 ≤ l ∧ l ≤ 100 := by
  have h1 := pageNum_fin_ge_one page _ hp
  have h2 := limitNum_fin_bounds limit _ hl
  refine ⟨by exact_mod_cast h1, by exact_mod_cast h2.1, by exact_mod_cast h2.2⟩

theorem offset_of_nat (page limit : Option String) (p l : ℕ)
    (hp : Server.pageNum page = .fin (p : ℚ)) (hl : Server.limitNum limit = .fin (l : ℚ))
    (hb : (p - 1) * l < 2 ^ 53) :
    Server.offset page limit = .fin (((p - 1) * l : ℕ) : ℚ) := by
  obtain ⟨hp1, hl1, _⟩ := nat_bounds_of_fin page limit p l hp hl
  have h53 : (2 : ℕ) ^ 53 = 9007199254740992 := by norm_num
  have hsub : p - 1 ≤ 9007199254740992 := by
    have h := Nat.le_mul_of_pos_right (p - 1) hl1
    omega
  have e1 : (p : ℚ) - 1 = ((p - 1 : ℕ) : ℚ) := by
    push_cast [Nat.cast_sub hp1]
    ring
  have e2 : ((p - 1 : ℕ) : ℚ) * (l : ℚ) = (((p - 1) * l : ℕ) : ℚ) := by
    push_cast
    ring
  simp only [Server.offset, hp, hl, Server.jsSub, e1, toDouble_of_nat (p - 1) hsub,
    Server.jsMul, e2]
  exact toDouble_of_nat ((p - 1) * l) (by omega)

theorem selectRows_of_nat (table : List Server.Row) (company : Option String) (l o : ℕ)
    (hl : l < 2 ^ 63) (ho : o < 2 ^ 63) :
    Server.selectRows table company (.fin (l : ℚ)) (.fin (o : ℚ))
      = some ((((Server.matching table company).insertionSort
          (fun a b => b.launchDate ≤ a.launchDate)).drop o).take l) := by
  have hl2 : l < 9223372036854775808 := by
    have h : (2 : ℕ) ^ 63 = 9223372036854775808 := by norm_num
    omega
  have ho2 : o < 9223372036854775808 := by
    have h : (2 : ℕ) ^ 63 = 9223372036854775808 := by norm_num
    omega
  simp [Server.selectRows, hl2, ho2]

theorem getDrugs_of_nat (table : List Server.Row) (company page limit : Option String)
    (p l : ℕ)
    (hp : Server.pageNum page = .fin (p : ℚ)) (hl : Server.limitNum limit = .fin (l : ℚ))
    (hb : (p - 1) * l < 2 ^ 53) :
    Server.getDrugs table company page limit
      = .ok (((((Server.matching table company).insertionSort
            (fun a b => b.launchDate ≤ a.launchDate)).drop ((p - 1) * l)).take l).map
            Server.formatRow)
          (Server.pagination (.fin ((Server.matching table company).length : ℕ))
            (.fin (p : ℚ)) (.fin (l : ℚ))) := by
  obtain ⟨_, _, hl100⟩ := nat_bounds_of_fin page limit p l hp hl
  have h1 : l < 2 ^ 63 := by
    have : (100 : ℕ) < 2 ^ 63 := by norm_num
    omega
  have h2 : (p - 1) * l < 2 ^ 63 := by
    have : (2 : ℕ) ^ 53 < 2 ^ 63 := by norm_num
    omega
  simp only [Server.getDrugs, hp, hl, offset_of_nat page limit p l hp hl hb,
    selectRows_of_nat table company l ((p - 1) * l) h1 h2, Server.countRows]

/-- C10 as stated fails: a filter that matches no row, asked for page 2, is answered
with hasPrevPage = true. -/
theorem C10_empty_result_page_two_has_prev :
    Server.getDrugs
        [{ id := 1, code := "A1", genericName := "x", brandName := "Y", company := "Acme",
           launchDate := "2001-05-10T00:00:00Z" }]
        (some "Nobody") (some "2") none
      = .ok [] { currentPage := .fin 2, totalPages := .fin 0, totalRecords := .fin 0,
                 limit := .fin 50, hasNextPage := false, hasPrevPage := true } := by
  have hp : Server.pageNum (some "2") = .fin ((2 : ℕ) : ℚ) := by decide
  have hl : Server.limitNum none = .fin ((50 : ℕ) : ℚ) := by decide
  have hm : Server.matching
      [{ id := 1, code := "A1", genericName := "x", brandName := "Y", company := "Acme",
         launchDate := "2001-05-10T00:00:00Z" }] (some "Nobody") = [] := by
    apply matching_eq_nil
    · decide
    · intro r hr
      simp only [List.mem_singleton] at hr
      subst hr
      decide
  rw [getDrugs_of_nat _ _ _ _ 2 50 hp hl (by norm_num), hm]
  simp only [List.insertionSort, List.drop_nil, List.take_nil, List.map_nil, List.length_nil]
  rw [pagination_zero 2 50 (by decide) (by decide)]
  simp

/-- C10, amended: for every query whose company filter matches zero rows, and for every
requested page and limit that normalise to numbers p and l with an offset (p-1)*l below
2^53, the response is data = [], totalRecords = 0, totalPages = 0, hasNextPage = false, and
hasPrevPage true exactly when the current page is greater than 1 (so false for page 1). -/
theorem C10_empty_result (table : List Server.Row) (c : String) (page limit : Option String)
    (p l : ℕ) (hc : c ≠ "") (hnone : ∀ r ∈ table, r.company ≠ c)
    (hp : Server.pageNum page = .fin (p : ℚ)) (hl : Server.limitNum limit = .fin (l : ℚ))
    (hb : (p - 1) * l < 2 ^ 53) :
    1 ≤ p ∧ 1 ≤ l ∧ l ≤ 100 ∧
    Server.getDrugs table (some c) page limit
      = .ok [] { currentPage := .fin (p : ℚ), totalPages := .fin 0, totalRecords := .fin 0,
                 limit := .fin (l : ℚ), hasNextPage := false,
                 hasPrevPage := decide (1 < p) } := by
  obtain ⟨hp1, hl1, hl100⟩ := nat_bounds_of_fin page limit p l hp hl
  refine ⟨hp1, hl1, hl100, ?_⟩
  rw [getDrugs_of_nat table (some c) page limit p l hp hl hb,
    matching_eq_nil table c hc hnone]
  simp only [List.insertionSort, List.drop_nil, List.take_nil, List.map_nil, List.length_nil]
  rw [pagination_zero p l hp1 hl1]

/-- Witness for C10: a one-row table, a filter for another company, default page and
limit. -/
theorem C10_empty_result_witness :
    Server.getDrugs
        [{ id := 1, code := "A1", genericName := "x", brandName := "Y", company := "Acme",
           launchDate := "2001-05-10T00:00:00Z" }]
        (some "Nobody") none none
      = .ok [] { currentPage := .fin ((1 : ℕ) : ℚ), totalPages := .fin 0,
                 totalRecords := .fin 0, limit := .fin ((50 : ℕ) : ℚ),
                 hasNextPage := false, hasPrevPage := decide (1 < 1) } :=
  (C10_empty_result
    [{ id := 1, code := "A1", genericName := "x", brandName := "Y", company := "Acme",
       launchDate := "2001-05-10T00:00:00Z" }]
    "Nobody" none none 1 50 (by decide)
    (by
      intro r hr
      simp only [List.mem_singleton] at hr
      subst hr
      decide)
    (by decide) (by decide) (by norm_num)).2.2.2

theorem getDrugs_page_1e18 (table : List Server.Row) (company : Option String) :
    Server.pageNum (some "1000000000000000000") = .fin ((1000000000000000000 : ℕ) : ℚ) ∧
    Server.limitNum (some "100") = .fin ((100 : ℕ) : ℚ) ∧
    Server.offset (some "1000000000000000000") (some "100")
      = .fin ((100000000000000000000 : ℕ) : ℚ) ∧
    Server.selectRows table company (.fin ((100 : ℕ) : ℚ))
      (.fin ((100000000000000000000 : ℕ) : ℚ)) = none ∧
    Server.getDrugs table company (some "1000000000000000000") (some "100")
      = .serverError := by
  have r1 : toDouble ((1000000000000000000 : ℕ) : ℚ)
      = .fin ((1000000000000000000 : ℕ) : ℚ) := by
    rw [toDouble_natCast_large 1000000000000000000 (by decide) 7 (by decide) (by decide)
      (by decide)]
    congr 2
  have r2 : toDouble ((999999999999999999 : ℕ) : ℚ)
      = .fin ((1000000000000000000 : ℕ) : ℚ) := by
    rw [toDouble_natCast_large 999999999999999999 (by decide) 7 (by decide) (by decide)
      (by decide)]
    congr 2
  have r3 : toDouble ((100000000000000000000 : ℕ) : ℚ)
      = .fin ((100000000000000000000 : ℕ) : ℚ) := by
    rw [toDouble_natCast_large 100000000000000000000 (by decide) 14 (by decide) (by decide)
      (by decide)]
    congr 2
  have hparse : Server.parseInt "1000000000000000000"
      = toDouble ((1000000000000000000 : ℕ) : ℚ) := by
    have h : Server.parseInt "1000000000000000000"
        = toDouble (((1 : ℤ) * ((1000000000000000000 : ℕ) : ℤ) : ℤ) : ℚ) := by
      simp [Server.parseInt, Server.leadingDigits, Server.digitValue, Server.isStrWhiteSpace]
    rw [h]
    congr 1
  have hp : Server.pageNum (some "1000000000000000000")
      = .fin ((1000000000000000000 : ℕ) : ℚ) := by
    simp only [Server.pageNum, Option.getD_some, hparse, r1, Server.mathMax]
    congr 1
  have hl : Server.limitNum (some "100") = .fin ((100 : ℕ) : ℚ) := by decide
  have ho : Server.offset (some "1000000000000000000") (some "100")
      = .fin ((100000000000000000000 : ℕ) : ℚ) := by
    have e1 : ((1000000000000000000 : ℕ) : ℚ) - 1 = ((999999999999999999 : ℕ) : ℚ) := by
      norm_num
    have e2 : ((1000000000000000000 : ℕ) : ℚ) * ((100 : ℕ) : ℚ)
        = ((100000000000000000000 : ℕ) : ℚ) := by norm_num
    simp only [Server.offset, hp, hl, Server.jsSub, e1, r2, Server.jsMul, e2, r3]
  have hs : Server.selectRows table company (.fin ((100 : ℕ) : ℚ))
      (.fin ((100000000000000000000 : ℕ) : ℚ)) = none := by
    simp [Server.selectRows]
  refine ⟨hp, hl, ho, hs, ?_⟩
  simp only [Server.getDrugs, hp, hl, ho, hs]

/-- C11 as stated fails: on a one-row table, with no filter, the page 1000000000000000000
and the limit 100 are a page >= 1 and a limit in [1,100], the offset is 10^20, beyond the
64-bit integers SQLite takes, and the answer is the 500 error, not a slice of the rows. -/
theorem C11_huge_page_is_refused :
    Server.pageNum (some "1000000000000000000") = .fin ((1000000000000000000 : ℕ) : ℚ) ∧
    Server.limitNum (some "100") = .fin ((100 : ℕ) : ℚ) ∧
    Server.getDrugs
        [{ id := 1, code := "A1", genericName := "x", brandName := "Y", company := "Acme",
           launchDate := "2001-05-10T00:00:00Z" }]
        none (some "1000000000000000000") (some "100")
      = .serverError :=
  have h := getDrugs_page_1e18
    [{ id := 1, code := "A1", genericName := "x", brandName := "Y", company := "Acme",
       launchDate := "2001-05-10T00:00:00Z" }] none
  ⟨h.1, h.2.1, h.2.2.2.2⟩

/-- C11, amended: for every table, company parameter, and page and limit that normalise
to p and l (then p >= 1 and l is in [1,100]) with an offset (p-1)*l below 2^53, the
handler answers with the rows that match the filter (the rows whose company equals the
parameter exactly; all rows when the parameter is absent or empty), put in descending
order of launchDate, cut to the slice that skips (p-1)*l rows and keeps at most l rows,
each row given as id, code, name = genericName followed by brandName in parentheses,
company and launchDate; and totalRecords is the number of matching rows before the cut. -/
theorem C11_drugs_query (table : List Server.Row) (company page limit : Option String)
    (p l : ℕ)
    (hp : Server.pageNum page = .fin (p : ℚ)) (hl : Server.limitNum limit = .fin (l : ℚ))
    (hb : (p - 1) * l < 2 ^ 53) :
    1 ≤ p ∧ 1 ≤ l ∧ l ≤ 100 ∧
    ∃ sorted : List Server.Row,
      sorted.Perm (Server.matching table company) ∧
      sorted.Sorted (fun a b => b.launchDate ≤ a.launchDate) ∧
      Server.offset page limit = .fin (((p - 1) * l : ℕ) : ℚ) ∧
      Server.getDrugs table company page limit
        = .ok (((sorted.drop ((p - 1) * l)).take l).map (fun r =>
              { id := r.id, code := r.code,
                name := r.genericName ++ " (" ++ r.brandName ++ ")",
                company := r.company, launchDate := r.launchDate }))
            { currentPage := .fin (p : ℚ),
              totalPages := .fin
                (⌈((Server.matching table company).length : ℚ) / (l : ℚ)⌉ : ℤ),
              totalRecords := .fin ((Server.matching table company).length : ℕ),
              limit := .fin (l : ℚ),
              hasNextPage := decide
                ((p : ℤ) < ⌈((Server.matching table company).length : ℚ) / (l : ℚ)⌉),
              hasPrevPage := decide (1 < p) } ∧
      ((sorted.drop ((p - 1) * l)).take l).length ≤ l ∧
      (company = none ∨ company = some "" → Server.matching table company = table) ∧
      (∀ c : String, company = some c → c ≠ "" →
        Server.matching table company = table.filter (fun r => decide (r.company = c))) := by
  haveI : IsTotal Server.Row (fun a b => b.launchDate ≤ a.launchDate) :=
    ⟨fun a b => le_total b.launchDate a.launchDate⟩
  haveI : IsTrans Server.Row (fun a b => b.launchDate ≤ a.launchDate) :=
    ⟨fun _ _ _ hab hbc => le_trans hbc hab⟩
  obtain ⟨hp1, hl1, hl100⟩ := nat_bounds_of_fin page limit p l hp hl
  refine ⟨hp1, hl1, hl100, (Server.matching table company).insertionSort
      (fun a b => b.launchDate ≤ a.launchDate),
    List.perm_insertionSort _ _, List.sorted_insertionSort _ _,
    offset_of_nat page limit p l hp hl hb, ?_, ?_, ?_, ?_⟩
  · rw [getDrugs_of_nat table company page limit p l hp hl hb,
      pagination_of_nat _ p l hl1]
    rfl
  · exact List.length_take_le _ _
  · rintro (h | h) <;> simp [h, Server.matching]
  · intro c hc hne
    simp [hc, hne, Server.matching]

/-- Witness for C11: three rows, filter "Acme", page 2 with one row per page. -/
theorem C11_drugs_query_witness :
    ∃ sorted : List Server.Row,
      sorted.Perm (Server.matching
        [{ id := 1, code := "A1", genericName := "x", brandName := "X", company := "Acme",
           launchDate := "2001-05-10T00:00:00Z" },
         { id := 2, code := "B1", genericName := "y", brandName := "Y", company := "Beta",
           launchDate := "2010-01-01T00:00:00Z" },
         { id := 3, code := "A2", genericName := "z", brandName := "Z", company := "Acme",
           launchDate := "2004-02-14T23:01:10Z" }] (some "Acme")) ∧
      sorted.Sorted (fun a b => b.launchDate ≤ a.launchDate) ∧
      ∃ pg : Server.Pagination,
        Server.getDrugs
          [{ id := 1, code := "A1", genericName := "x", brandName := "X", company := "Acme",
             launchDate := "2001-05-10T00:00:00Z" },
           { id := 2, code := "B1", genericName := "y", brandName := "Y", company := "Beta",
             launchDate := "2010-01-01T00:00:00Z" },
           { id := 3, code := "A2", genericName := "z", brandName := "Z", company := "Acme",
             launchDate := "2004-02-14T23:01:10Z" }]
          (some "Acme") (some "2") (some "1")
        = .ok (((sorted.drop ((2 - 1) * 1)).take 1).map (fun r =>
              { id := r.id, code := r.code,
                name := r.genericName ++ " (" ++ r.brandName ++ ")",
                company := r.company, launchDate := r.launchDate })) pg := by
  obtain ⟨_, _, _, sorted, hperm, hsorted, _, hget, _⟩ := C11_drugs_query
    [{ id := 1, code := "A1", genericName := "x", brandName := "X", company := "Acme",
       launchDate := "2001-05-10T00:00:00Z" },
     { id := 2, code := "B1", genericName := "y", brandName := "Y", company := "Beta",
       launchDate := "2010-01-01T00:00:00Z" },
     { id := 3, code := "A2", genericName := "z", brandName := "Z", company := "Acme",
       launchDate := "2004-02-14T23:01:10Z" }]
    (some "Acme") (some "2") (some "1") 2 1 (by decide) (by decide) (by norm_num)
  exact ⟨sorted, hperm, hsorted, _, hget⟩

theorem runStatements_inserts (fails : Nat → Bool) (records : List CanonicalDrug)
    (k : Nat) (db : InitDb.Database) :
    InitDb.runStatements fails k db (records.map .insert)
      = { rows := db.rows ++
            ((((records.enumFrom k).filter (fun q => !fails q.1)).map Prod.snd).enumFrom
              (db.sequence + 1)).map (fun q => { id := q.1, drug := q.2 }),
          sequence := db.sequence
            + (((records.enumFrom k).filter (fun q => !fails q.1)).map Prod.snd).length } := by
  induction records generalizing k db with
  | nil => simp [InitDb.runStatements]
  | cons d rest ih =>
    simp only [List.map_cons, InitDb.runStatements, ih, List.enumFrom_cons, List.filter_cons]
    cases hf : fails k
    · simp only [Bool.false_eq_true, if_false, InitDb.Database.exec, Bool.not_false, if_true,
        List.map_cons, List.enumFrom_cons, List.append_assoc, List.singleton_append,
        List.length_cons]
      congr 1
      omega
    · simp only [if_true, Bool.not_true, Bool.false_eq_true, if_false]

theorem load_eq (db : InitDb.Database) (records : List CanonicalDrug) (fails : Nat → Bool) :
    InitDb.load db records fails
      = { rows := (if fails 1 then db.rows else []) ++
            ((InitDb.succeeded fails records).enumFrom (db.sequence + 1)).map
              (fun q => { id := q.1, drug := q.2 }),
          sequence := db.sequence + (InitDb.succeeded fails records).length } := by
  simp only [InitDb.load, InitDb.statements, InitDb.runStatements, InitDb.Database.exec,
    ite_self, runStatements_inserts, InitDb.succeeded]
  cases fails 1 <;> rfl

theorem enumFrom_rows_drugs (start : Nat) (rs : List CanonicalDrug) :
    ((rs.enumFrom start).map
      (fun q => ({ id := q.1, drug := q.2 } : InitDb.StoredRow))).map (fun r => r.drug)
      = rs := by
  rw [List.map_map]
  have h : ((fun r : InitDb.StoredRow => r.drug) ∘
      (fun q : Nat × CanonicalDrug => ({ id := q.1, drug := q.2 } : InitDb.StoredRow)))
      = Prod.snd := rfl
  rw [h, List.enumFrom_map_snd]

theorem enumFrom_rows_ids (start : Nat) (rs : List CanonicalDrug) :
    ((rs.enumFrom start).map
      (fun q => ({ id := q.1, drug := q.2 } : InitDb.StoredRow))).map (fun r => r.id)
      = List.range' start rs.length := by
  rw [List.map_map]
  have h : ((fun r : InitDb.StoredRow => r.id) ∘
      (fun q : Nat × CanonicalDrug => ({ id := q.1, drug := q.2 } : InitDb.StoredRow)))
      = Prod.fst := rfl
  rw [h, List.enumFrom_map_fst]

theorem succeeded_of_no_failure (records : List CanonicalDrug) :
    InitDb.succeeded (fun _ => false) records = records := by
  simp [InitDb.succeeded, List.enumFrom_map_snd]

/-- C12 as stated fails: on a table with one old row, a load of the three records A, B, C
in which the INSERT of B fails leaves the old row deleted and the records A and C in the
table, which is neither the prior table nor the given records. -/
theorem C12_failed_insert_leaves_partial_table :
    (InitDb.load
        { rows := [{ id := 1, drug :=
            { code := .str "OLD", genericName := .str "o", brandName := .str "O",
              company := .str "Old Co", launchDate := .str "1998-09-25T00:00:00Z" } }],
          sequence := 1 }
        [{ code := .str "A", genericName := .str "a", brandName := .str "A",
           company := .str "Acme", launchDate := .str "2001-05-10T00:00:00Z" },
         { code := .str "B", genericName := .str "b", brandName := .str "B",
           company := .str "Beta", launchDate := .str "2004-02-14T23:01:10Z" },
         { code := .str "C", genericName := .str "c", brandName := .str "C",
           company := .str "Gamma", launchDate := .str "2010-01-01T00:00:00Z" }]
        (fun position => position == 3)).rows.map (fun r => (r.id, r.drug.code))
      = [(2, .str "A"), (3, .str "C")] ∧
    (InitDb.load
        { rows := [{ id := 1, drug :=
            { code := .str "OLD", genericName := .str "o", brandName := .str "O",
              company := .str "Old Co", launchDate := .str "1998-09-25T00:00:00Z" } }],
          sequence := 1 }
        [{ code := .str "A", genericName := .str "a", brandName := .str "A",
           company := .str "Acme", launchDate := .str "2001-05-10T00:00:00Z" },
         { code := .str "B", genericName := .str "b", brandName := .str "B",
           company := .str "Beta", launchDate := .str "2004-02-14T23:01:10Z" },
         { code := .str "C", genericName := .str "c", brandName := .str "C",
           company := .str "Gamma", launchDate := .str "2010-01-01T00:00:00Z" }]
        (fun _ => false)).rows.map (fun r => (r.id, r.drug.code))
      = [(2, .str "A"), (3, .str "B"), (4, .str "C")] :=
  ⟨rfl, rfl⟩

/-- C12, amended: the bulk load is a sequence of statements, each committed on its own,
and a statement that fails does not stop the ones after it.  For every prior database,
record sequence and set of failing statements, the table afterwards holds the old rows if
the DELETE failed and none of them otherwise, followed by exactly the records whose INSERT
did not fail, in order, with fresh consecutive identifiers above every earlier one.  When
no statement fails this is exactly the given records. -/
theorem C12_load_statement_by_statement (db : InitDb.Database)
    (records : List CanonicalDrug) (fails : Nat → Bool) :
    (InitDb.load db records fails).rows.map (fun r => r.drug)
      = (if fails 1 then db.rows.map (fun r => r.drug) else [])
        ++ InitDb.succeeded fails records ∧
    (InitDb.load db records fails).rows.map (fun r => r.id)
      = (if fails 1 then db.rows.map (fun r => r.id) else [])
        ++ List.range' (db.sequence + 1) (InitDb.succeeded fails records).length ∧
    (InitDb.load db records (fun _ => false)).rows.map (fun r => r.drug) = records ∧
    (InitDb.load db records (fun _ => false)).rows.map (fun r => r.id)
      = List.range' (db.sequence + 1) records.length ∧
    (fails 1 = false → (∀ k, k < records.length → fails (k + 2) = false) →
      (InitDb.load db records fails).rows.map (fun r => r.drug) = records) := by
  refine ⟨?_, ?_, ?_, ?_, ?_⟩
  · rw [load_eq]
    cases fails 1 <;>
      simp only [Bool.false_eq_true, if_false, if_true, List.map_append, List.nil_append,
        enumFrom_rows_drugs]
  · rw [load_eq]
    cases fails 1 <;>
      simp only [Bool.false_eq_true, if_false, if_true, List.map_append, List.nil_append,
        enumFrom_rows_ids]
  · rw [load_eq, succeeded_of_no_failure]
    simp only [Bool.false_eq_true, if_false, List.nil_append, enumFrom_rows_drugs]
  · rw [load_eq, succeeded_of_no_failure]
    simp only [Bool.false_eq_true, if_false, List.nil_append, enumFrom_rows_ids]
  · intro h1 hall
    rw [load_eq, h1]
    simp only [Bool.false_eq_true, if_false, List.nil_append, enumFrom_rows_drugs]
    unfold InitDb.succeeded
    have hfilter : (records.enumFrom 2).filter (fun q => !fails q.1)
        = records.enumFrom 2 := by
      rw [List.filter_eq_self]
      intro q hq
      obtain ⟨hq1, hq2, _⟩ := List.mem_enumFrom hq
      have hk := hall (q.1 - 2) (by omega)
      have e : q.1 - 2 + 2 = q.1 := by omega
      rw [e] at hk
      simp [hk]
    rw [hfilter, List.enumFrom_map_snd]

/-- Witness for C12: a load of two records in which no statement fails. -/
theorem C12_load_statement_by_statement_witness :
    (InitDb.load { rows := [], sequence := 0 }
        [{ code := .str "A", genericName := .str "a", brandName := .str "A",
           company := .str "Acme", launchDate := .str "2001-05-10T00:00:00Z" },
         { code := .str "B", genericName := .str "b", brandName := .str "B",
           company := .str "Beta", launchDate := .str "2004-02-14T23:01:10Z" }]
        (fun _ => false)).rows.map (fun r => r.drug)
      = [{ code := .str "A", genericName := .str "a", brandName := .str "A",
           company := .str "Acme", launchDate := .str "2001-05-10T00:00:00Z" },
         { code := .str "B", genericName := .str "b", brandName := .str "B",
           company := .str "Beta", launchDate := .str "2004-02-14T23:01:10Z" }] :=
  (C12_load_statement_by_statement { rows := [], sequence := 0 }
    [{ code := .str "A", genericName := .str "a", brandName := .str "A",
       company := .str "Acme", launchDate := .str "2001-05-10T00:00:00Z" },
     { code := .str "B", genericName := .str "b", brandName := .str "B",
       company := .str "Beta", launchDate := .str "2004-02-14T23:01:10Z" }]
    (fun _ => false)).2.2.2.2 rfl (fun _ _ => rfl)

theorem drugsParams_of_company (c : String) (hc : c ≠ "") (s : App.State) :
    App.drugsParams { s with selectedCompany := c }
      = .obj [("company", .str c), ("page", s.pagination.currentPage),
          ("limit", s.pagination.limit)] := by
  simp [App.drugsParams, jsAnd, JSValue.truthy, hc, App.spreadProps]

theorem drugsParams_of_empty (s : App.State) :
    App.drugsParams { s with selectedCompany := "" }
      = .obj [("page", s.pagination.currentPage), ("limit", s.pagination.limit)] := by
  simp [App.drugsParams, jsAnd, JSValue.truthy, App.spreadProps]

/-- C13, the failing input: after "Merck Sharp & Dohme Corp." is chosen in the dropdown,
or its chip is clicked, on the initial state, the request to `/api/drugs` carries the
params company, page 1 and limit 10, three keys and not the single key company that the
tests of lines 152-154 and 191-193 expect. -/
theorem C13_company_request_carries_page_and_limit :
    App.drugsParams (App.handleCompanyFilter "Merck Sharp & Dohme Corp." App.initialState)
      = .obj [("company", .str "Merck Sharp & Dohme Corp."), ("page", .num (.fin 1)),
          ("limit", .num (.fin 10))] ∧
    App.drugsParams (App.handleCompanyClick "Merck Sharp & Dohme Corp." App.initialState)
      = .obj [("company", .str "Merck Sharp & Dohme Corp."), ("page", .num (.fin 1)),
          ("limit", .num (.fin 10))] ∧
    App.drugsParams (App.handleCompanyFilter "Merck Sharp & Dohme Corp." App.initialState)
      ≠ .obj [("company", .str "Merck Sharp & Dohme Corp.")] := by
  have h := drugsParams_of_company "Merck Sharp & Dohme Corp." (by decide)
    (App.handleCompanyFilter "" App.initialState)
  refine ⟨h, h, ?_⟩
  intro he
  have he2 := he.symm.trans h
  injection he2 with he3
  injection he3 with _ he4
  cases he4

/-- C14: clearing the company filter from any state sets the selected company to the empty
string and currentPage to 1, leaves limit and the other pagination fields as they were,
and the request built from the new state has exactly the params page = 1 and limit = the
current limit, with no company key; from the initial state these are page 1, limit 10. -/
theorem C14_clear_filter (s : App.State) :
    (App.handleCompanyFilter "" s).selectedCompany = "" ∧
    (App.handleCompanyFilter "" s).pagination.currentPage = .num (.fin 1) ∧
    (App.handleCompanyFilter "" s).pagination.limit = s.pagination.limit ∧
    (App.handleCompanyFilter "" s).pagination.totalPages = s.pagination.totalPages ∧
    (App.handleCompanyFilter "" s).pagination.totalRecords = s.pagination.totalRecords ∧
    (App.handleCompanyFilter "" s).pagination.hasNextPage = s.pagination.hasNextPage ∧
    (App.handleCompanyFilter "" s).pagination.hasPrevPage = s.pagination.hasPrevPage ∧
    App.drugsParams (App.handleCompanyFilter "" s)
      = .obj [("page", .num (.fin 1)), ("limit", s.pagination.limit)] ∧
    (App.drugsParams (App.handleCompanyFilter "" s)).prop "company" = .undefined ∧
    App.drugsParams (App.handleCompanyFilter ""
        (App.handleCompanyFilter "Merck Sharp & Dohme Corp." App.initialState))
      = .obj [("page", .num (.fin 1)), ("limit", .num (.fin 10))] := by
  have h : App.drugsParams (App.handleCompanyFilter "" s)
      = .obj [("page", .num (.fin 1)), ("limit", s.pagination.limit)] :=
    drugsParams_of_empty (App.handleCompanyFilter "" s)
  refine ⟨rfl, rfl, rfl, rfl, rfl, rfl, rfl, h, ?_, ?_⟩
  · rw [h]
    rfl
  · exact drugsParams_of_empty (App.handleCompanyFilter ""
      (App.handleCompanyFilter "Merck Sharp & Dohme Corp." App.initialState))

/-- C15, the failing inputs: a record that names its manufacturer `manufacturerName` is
given that company by convert-data and kept, but is given the empty company by init-db and
dropped; a record that names its code `drug_id` keeps that code in convert-data and gets
the synthesized "DRUG-1" in init-db. -/
theorem C15_init_db_misses_two_aliases :
    (∃ c d : CanonicalDrug,
      ConvertData.convert (.obj [("genericName", .str "x"), ("brandName", .str "Y"),
        ("manufacturerName", .str "Z")]) 0 "t" = .ok c ∧
      InitDb.normalize (.obj [("genericName", .str "x"), ("brandName", .str "Y"),
        ("manufacturerName", .str "Z")]) 0 "t" = .ok d ∧
      c.company = .str "Z" ∧ d.company = .str "" ∧
      isValid c = true ∧ isValid d = false) ∧
    (∃ c d : CanonicalDrug,
      ConvertData.convert (.obj [("drug_id", .str "X1")]) 0 "t" = .ok c ∧
      InitDb.normalize (.obj [("drug_id", .str "X1")]) 0 "t" = .ok d ∧
      c.code = .str "X1" ∧ d.code = .str "DRUG-1") :=
  ⟨⟨_, _, rfl, rfl, rfl, rfl, rfl, rfl⟩, ⟨_, _, rfl, rfl, rfl, rfl⟩⟩

theorem firstTruthyAlias_truthy_or_default (r : JSValue) (ks : List String) (d : JSValue) :
    (firstTruthyAlias r ks d).truthy = true ∨ firstTruthyAlias r ks d = d := by
  unfold firstTruthyAlias
  split
  · next k hk => exact Or.inl (by simpa using List.find?_some hk)
  · exact Or.inr rfl

theorem viaJSON_of_isString {v : JSValue} (h : v.isString = true) : viaJSON v = v := by
  cases v <;> first | rfl | simp [JSValue.isString] at h

theorem viaJSONProps_cons_stable (k : String) (v : JSValue) (ps : List (String × JSValue))
    (h : viaJSON v = v) : viaJSONProps ((k, v) :: ps) = (k, v) :: viaJSONProps ps := by
  cases v with
  | undefined => simp [viaJSON] at h
  | null => simp [viaJSONProps, viaJSON]
  | bool b => simp [viaJSONProps, viaJSON]
  | num x => simp only [viaJSONProps, h]
  | str s => simp [viaJSONProps, viaJSON]
  | arr xs => simp only [viaJSONProps, h]
  | obj qs => simp only [viaJSONProps, h]

theorem fileRecord_of_stable (c : CanonicalDrug)
    (h : ∀ v ∈ [c.code, c.genericName, c.brandName, c.company, c.launchDate],
      viaJSON v = v) :
    ConvertData.fileRecord c = ConvertData.recordObject c := by
  have h1 := h c.code (by simp)
  have h2 := h c.genericName (by simp)
  have h3 := h c.brandName (by simp)
  have h4 := h c.company (by simp)
  have h5 := h c.launchDate (by simp)
  simp only [ConvertData.fileRecord, ConvertData.recordObject, viaJSON,
    viaJSONProps_cons_stable _ _ _ h1, viaJSONProps_cons_stable _ _ _ h2,
    viaJSONProps_cons_stable _ _ _ h3, viaJSONProps_cons_stable _ _ _ h4,
    viaJSONProps_cons_stable _ _ _ h5, viaJSONProps]

theorem viaJSONItems_map (f : CanonicalDrug → JSValue) (cs : List CanonicalDrug) :
    viaJSONItems (cs.map f) = cs.map (fun c => viaJSON (f c)) := by
  induction cs with
  | nil => simp [viaJSONItems]
  | cons c rest ih => simp [viaJSONItems, ih]

theorem outputFile_eq (vs : List CanonicalDrug) :
    ConvertData.outputFile vs = .arr (vs.map ConvertData.fileRecord) := by
  simp only [ConvertData.outputFile, viaJSON, viaJSONItems_map]
  rfl

theorem normalize_recordObject (c : CanonicalDrug) (j : Nat) (now : String)
    (hcode : c.code.truthy = true) (hdate : c.launchDate.truthy = true)
    (hg : c.genericName.truthy = true ∨ c.genericName = .str "")
    (hb : c.brandName.truthy = true ∨ c.brandName = .str "")
    (hc : c.company.truthy = true ∨ c.company = .str "") :
    InitDb.normalize (ConvertData.recordObject c) j now = .ok c := by
  rw [normalize_eq_ok (by intro h; cases h) (by intro h; cases h)]
  have e1 : (ConvertData.recordObject c).prop "code" = c.code := rfl
  have e2 : (ConvertData.recordObject c).prop "genericName" = c.genericName := rfl
  have e3 : (ConvertData.recordObject c).prop "brandName" = c.brandName := rfl
  have e4 : (ConvertData.recordObject c).prop "company" = c.company := rfl
  have e5 : (ConvertData.recordObject c).prop "launchDate" = c.launchDate := rfl
  have u1 : (ConvertData.recordObject c).prop "generic_name" = .undefined := rfl
  have u2 : (ConvertData.recordObject c).prop "generic" = .undefined := rfl
  have u3 : (ConvertData.recordObject c).prop "brand_name" = .undefined := rfl
  have u4 : (ConvertData.recordObject c).prop "brand" = .undefined := rfl
  have u5 : (ConvertData.recordObject c).prop "companyName" = .undefined := rfl
  have u6 : (ConvertData.recordObject c).prop "manufacturer" = .undefined := rfl
  have hu : JSValue.undefined.truthy = false := rfl
  have k1 : firstTruthyAlias (ConvertData.recordObject c) ["code", "drugCode", "id"]
      (drugLabel j) = c.code := by
    rw [firstTruthyAlias_three, e1, hcode]; rfl
  have k2 : firstTruthyAlias (ConvertData.recordObject c)
      ["genericName", "generic_name", "generic"] (.str "") = c.genericName := by
    rw [firstTruthyAlias_three, e2, u1, u2, hu]
    rcases hg with h | h
    · simp [h]
    · rw [h]; rfl
  have k3 : firstTruthyAlias (ConvertData.recordObject c)
      ["brandName", "brand_name", "brand"] (.str "") = c.brandName := by
    rw [firstTruthyAlias_three, e3, u3, u4, hu]
    rcases hb with h | h
    · simp [h]
    · rw [h]; rfl
  have k4 : firstTruthyAlias (ConvertData.recordObject c)
      ["company", "companyName", "manufacturer"] (.str "") = c.company := by
    rw [firstTruthyAlias_three, e4, u5, u6, hu]
    rcases hc with h | h
    · simp [h]
    · rw [h]; rfl
  have k5 : firstTruthyAlias (ConvertData.recordObject c)
      ["launchDate", "launch_date", "date"] (.str now) = c.launchDate := by
    rw [firstTruthyAlias_three, e5, hdate]; rfl
  rw [k1, k2, k3, k4, k5]

theorem truthy_str_of_ne (t : String) (h : t ≠ "") : (JSValue.str t).truthy = true := by
  simp [JSValue.truthy, h]

theorem firstTruthyAlias_isString (r : JSValue) (ks : List String) (d : JSValue)
    (hr : ∀ k, (r.prop k).isString = true ∨ r.prop k = .undefined)
    (hd : d.isString = true) : (firstTruthyAlias r ks d).isString = true := by
  unfold firstTruthyAlias
  split
  · next k hk =>
    have ht : (r.prop k).truthy = true := by simpa using List.find?_some hk
    rcases hr k with h | h
    · exact h
    · rw [h] at ht
      simp [JSValue.truthy] at ht
  · exact hd

theorem convert_output_shape {r : JSValue} (hn : r ≠ .null) (hu : r ≠ .undefined)
    (i : Nat) (now : String) (hnow : now ≠ "") :
    ∃ c : CanonicalDrug, ConvertData.convert r i now = .ok c ∧
      c.code.truthy = true ∧ c.launchDate.truthy = true ∧
      (c.genericName.truthy = true ∨ c.genericName = .str "") ∧
      (c.brandName.truthy = true ∨ c.brandName = .str "") ∧
      (c.company.truthy = true ∨ c.company = .str "") ∧
      ((∀ k, (r.prop k).isString = true ∨ r.prop k = .undefined) →
        ∀ v ∈ [c.code, c.genericName, c.brandName, c.company, c.launchDate],
          viaJSON v = v) := by
  refine ⟨_, convert_eq_ok hn hu i now,
    firstTruthyAlias_truthy _ _ _ (drugLabel_truthy i),
    firstTruthyAlias_truthy _ _ _ (truthy_str_of_ne now hnow),
    firstTruthyAlias_truthy_or_default _ _ _,
    firstTruthyAlias_truthy_or_default _ _ _,
    firstTruthyAlias_truthy_or_default _ _ _, ?_⟩
  intro hr v hv
  simp only [List.mem_cons, List.mem_singleton, List.mem_nil_iff, or_false] at hv
  rcases hv with rfl | rfl | rfl | rfl | rfl <;>
    exact viaJSON_of_isString (firstTruthyAlias_isString r _ _ hr rfl)

theorem normalize_fileRecord (c : CanonicalDrug) (j : Nat) (now : String)
    (hcode : c.code.truthy = true) (hdate : c.launchDate.truthy = true)
    (hg : c.genericName.truthy = true ∨ c.genericName = .str "")
    (hb : c.brandName.truthy = true ∨ c.brandName = .str "")
    (hc : c.company.truthy = true ∨ c.company = .str "")
    (hs : ∀ v ∈ [c.code, c.genericName, c.brandName, c.company, c.launchDate],
      viaJSON v = v) :
    InitDb.normalize (ConvertData.fileRecord c) j now = .ok c := by
  rw [fileRecord_of_stable c hs]
  exact normalize_recordObject c j now hcode hdate hg hb hc

theorem normalizedDrugs_fileRecords (clock : Nat → String) (vs : List CanonicalDrug)
    (h : ∀ c ∈ vs, isValid c = true ∧ c.code.truthy = true ∧ c.launchDate.truthy = true)
    (hs : ∀ c ∈ vs, ∀ v ∈ [c.code, c.genericName, c.brandName, c.company, c.launchDate],
      viaJSON v = v)
    (start : Nat) :
    InitDb.normalizedDrugs clock start (vs.map ConvertData.fileRecord) = ([], .ok vs) := by
  induction vs generalizing start with
  | nil => rfl
  | cons c rest ih =>
    obtain ⟨hv, hcode, hdate⟩ := h c (List.mem_cons_self c rest)
    obtain ⟨hg, hb, hco⟩ := (isValid_iff c).1 hv
    have hnorm := normalize_fileRecord c start (clock start) hcode hdate
      (Or.inl hg) (Or.inl hb) (Or.inl hco) (hs c (List.mem_cons_self c rest))
    simp only [List.map_cons, InitDb.normalizedDrugs, hnorm,
      ih (fun x hx => h x (List.mem_cons_of_mem c hx))
        (fun x hx => hs x (List.mem_cons_of_mem c hx)) (start + 1),
      missingRequired_eq_not_isValid, hv]
    rfl

theorem run_output_shape (drugs : List JSValue) (clock : Nat → String)
    (hall : ∀ d ∈ drugs, d ≠ .null ∧ d ≠ .undefined) (hclock : ∀ i, clock i ≠ "") :
    ∃ vs : List CanonicalDrug,
      (ConvertData.run (.arr drugs) clock).2 = .written vs ∧
      (∀ c ∈ vs, isValid c = true ∧ c.code.truthy = true ∧ c.launchDate.truthy = true) ∧
      ((∀ d ∈ drugs, ∀ k, (d.prop k).isString = true ∨ d.prop k = .undefined) →
        ∀ c ∈ vs, ∀ v ∈ [c.code, c.genericName, c.brandName, c.company, c.launchDate],
          viaJSON v = v) := by
  obtain ⟨cs, hrun, hlen, hpt, _⟩ := convertedDrugs_spec clock drugs hall 0
  have key : ∀ c ∈ cs.filter isValid, ∃ d ∈ drugs, ∃ n : Nat,
      ConvertData.convert d n (clock n) = .ok c := by
    intro c hc
    obtain ⟨hmem, _⟩ := List.mem_filter.1 hc
    obtain ⟨n, hn, hget⟩ := List.getElem_of_mem hmem
    have hnd : n < drugs.length := by omega
    obtain ⟨c2, hc2, hconv⟩ := hpt n (drugs[n]) (List.getElem?_eq_getElem hnd)
    rw [List.getElem?_eq_getElem hn, hget] at hc2
    have hcc : c = c2 := Option.some.inj hc2
    subst hcc
    exact ⟨drugs[n], List.getElem_mem hnd, 0 + n, hconv⟩
  refine ⟨cs.filter isValid, ?_, ?_, ?_⟩
  · simp [ConvertData.run, locate_of_array, hrun, ConvertData.validDrugs]
  · intro c hc
    obtain ⟨d, hd, n, hconv⟩ := key c hc
    obtain ⟨c3, hc3, hcode, hdate, _⟩ :=
      convert_output_shape (hall d hd).1 (hall d hd).2 n (clock n) (hclock n)
    rw [hconv] at hc3
    have hcc : c = c3 := Except.ok.inj hc3
    subst hcc
    exact ⟨(List.mem_filter.1 hc).2, hcode, hdate⟩
  · intro hstr c hc
    obtain ⟨d, hd, n, hconv⟩ := key c hc
    obtain ⟨c3, hc3, _, _, _, _, _, hstable⟩ :=
      convert_output_shape (hall d hd).1 (hall d hd).2 n (clock n) (hclock n)
    rw [hconv] at hc3
    have hcc : c = c3 := Except.ok.inj hc3
    subst hcc
    exact hstable (hstr d hd)

/-- C16 as stated fails: the record whose `id` is a number beyond the range of doubles
(the literal 1e999, read as Infinity) is given the code Infinity by convert-data and kept;
the output file holds it with the code `null`; init-db, normalising that file record at
index 0, gives the code "DRUG-1", which is neither the code convert-data produced nor the
code in the file. -/
theorem C16_infinite_code_is_not_read_back :
    ∃ c d : CanonicalDrug,
      ConvertData.convert (.obj [("id", .num .posInf), ("genericName", .str "x"),
        ("brandName", .str "Y"), ("company", .str "Z"),
        ("launchDate", .str "2001-05-10T00:00:00Z")]) 0 "2024-01-01T00:00:00.000Z" = .ok c ∧
      c.code = .num .posInf ∧ isValid c = true ∧
      (ConvertData.fileRecord c).prop "code" = .null ∧
      InitDb.normalize (ConvertData.fileRecord c) 0 "2024-06-01T00:00:00.000Z" = .ok d ∧
      d.code = .str "DRUG-1" ∧
      (ConvertData.run (.arr [.obj [("id", .num .posInf), ("genericName", .str "x"),
          ("brandName", .str "Y"), ("company", .str "Z"),
          ("launchDate", .str "2001-05-10T00:00:00Z")]])
        (fun _ => "2024-01-01T00:00:00.000Z")).2 = .written [c] ∧
      InitDb.inserted (.parsed (ConvertData.outputFile [c]))
        (fun _ => "2024-06-01T00:00:00.000Z") = ([], .ok [d]) :=
  ⟨_, _, rfl, rfl, rfl, rfl, rfl, rfl, rfl, rfl⟩

/-- C16, amended: for every raw record r, indices i and j and clock readings (a timestamp
is never the empty string), when the five values of the record that convert-data produced
from (r, i) are written and read back unchanged by JSON (as they are when every value of r
is a string, and as a number beyond the range of doubles is not), init-db's normaliser at
index j applied to the file form of that record returns that same record, valid the second
time exactly when it was valid the first time; and init-db run on the file that
convert-data wrote for an array of such records prints no warning and hands to the INSERT
statement exactly the records of that file, in order. -/
theorem C16_renormalise_idempotent (r : JSValue) (i j : Nat) (now1 now2 : String)
    (drugs : List JSValue) (clock1 clock2 : Nat → String)
    (hn : r ≠ .null) (hu : r ≠ .undefined) (hnow : now1 ≠ "")
    (hall : ∀ d ∈ drugs, d ≠ .null ∧ d ≠ .undefined) (hclock : ∀ k, clock1 k ≠ "") :
    (∃ c : CanonicalDrug, ConvertData.convert r i now1 = .ok c ∧
      ((∀ v ∈ [c.code, c.genericName, c.brandName, c.company, c.launchDate],
          viaJSON v = v) →
        InitDb.normalize (ConvertData.fileRecord c) j now2 = .ok c ∧
        ∀ d : CanonicalDrug, InitDb.normalize (ConvertData.fileRecord c) j now2 = .ok d →
          d = c ∧ (isValid d = true ↔ isValid c = true)) ∧
      ((∀ k, (r.prop k).isString = true ∨ r.prop k = .undefined) →
        ∀ v ∈ [c.code, c.genericName, c.brandName, c.company, c.launchDate],
          viaJSON v = v)) ∧
    (∃ vs : List CanonicalDrug,
      (ConvertData.run (.arr drugs) clock1).2 = .written vs ∧
      ((∀ c ∈ vs, ∀ v ∈ [c.code, c.genericName, c.brandName, c.company, c.launchDate],
          viaJSON v = v) →
        InitDb.inserted (.parsed (ConvertData.outputFile vs)) clock2 = ([], .ok vs)) ∧
      ((∀ d ∈ drugs, ∀ k, (d.prop k).isString = true ∨ d.prop k = .undefined) →
        ∀ c ∈ vs, ∀ v ∈ [c.code, c.genericName, c.brandName, c.company, c.launchDate],
          viaJSON v = v)) := by
  constructor
  · obtain ⟨c, hc, hcode, hdate, hg, hb, hco, hstr⟩ :=
      convert_output_shape hn hu i now1 hnow
    refine ⟨c, hc, ?_, hstr⟩
    intro hs
    have hnorm := normalize_fileRecord c j now2 hcode hdate hg hb hco hs
    refine ⟨hnorm, ?_⟩
    intro d hd
    rw [hnorm] at hd
    have hcd : c = d := Except.ok.inj hd
    subst hcd
    exact ⟨rfl, Iff.rfl⟩
  · obtain ⟨vs, hrun, hvs, hstr⟩ := run_output_shape drugs clock1 hall hclock
    refine ⟨vs, hrun, ?_, hstr⟩
    intro hs
    have hfilter : vs.filter isValid = vs :=
      List.filter_eq_self.2 (fun c hc => (hvs c hc).1)
    simp [InitDb.inserted, InitDb.drugsToInsert, outputFile_eq, detect_of_array,
      InitDb.validatedDrugs, normalizedDrugs_fileRecords clock2 vs hvs hs 0, hfilter]

/-- Witness for C16: one record with alias keys and string values, and the array of a
valid and an invalid record. -/
theorem C16_renormalise_idempotent_witness :
    (∃ c : CanonicalDrug,
      ConvertData.convert (.obj [("id", .str "A1"), ("generic", .str "x"),
        ("brand", .str "Y"), ("manufacturer", .str "Z")]) 0 "2024-01-01T00:00:00.000Z"
        = .ok c ∧
      InitDb.normalize (ConvertData.fileRecord c) 5 "2024-06-01T00:00:00.000Z" = .ok c) ∧
    (∃ vs : List CanonicalDrug,
      (ConvertData.run (.arr [.obj [("id", .str "A1"), ("generic", .str "x"),
          ("brand", .str "Y"), ("manufacturer", .str "Z")], .obj [("brand", .str "W")]])
        (fun _ => "2024-01-01T00:00:00.000Z")).2 = .written vs ∧
      InitDb.inserted (.parsed (ConvertData.outputFile vs))
        (fun _ => "2024-06-01T00:00:00.000Z") = ([], .ok vs)) := by
  have hstr1 : ∀ k, ((JSValue.obj [("id", .str "A1"), ("generic", .str "x"),
      ("brand", .str "Y"), ("manufacturer", .str "Z")]).prop k).isString = true ∨
      (JSValue.obj [("id", .str "A1"), ("generic", .str "x"),
        ("brand", .str "Y"), ("manufacturer", .str "Z")]).prop k = .undefined := by
    intro k
    simp only [JSValue.prop, List.lookup]
    repeat' split
    all_goals first | exact Or.inl rfl | exact Or.inr rfl
  have hstr2 : ∀ k, ((JSValue.obj [("brand", .str "W")]).prop k).isString = true ∨
      (JSValue.obj [("brand", .str "W")]).prop k = .undefined := by
    intro k
    simp only [JSValue.prop, List.lookup]
    repeat' split
    all_goals first | exact Or.inl rfl | exact Or.inr rfl
  obtain ⟨⟨c, hc, hnorm, hs⟩, vs, hrun, hfile, hvs⟩ := C16_renormalise_idempotent
    (.obj [("id", .str "A1"), ("generic", .str "x"), ("brand", .str "Y"),
      ("manufacturer", .str "Z")]) 0 5
    "2024-01-01T00:00:00.000Z" "2024-06-01T00:00:00.000Z"
    [.obj [("id", .str "A1"), ("generic", .str "x"), ("brand", .str "Y"),
      ("manufacturer", .str "Z")], .obj [("brand", .str "W")]]
    (fun _ => "2024-01-01T00:00:00.000Z") (fun _ => "2024-06-01T00:00:00.000Z")
    (fun h => by cases h) (fun h => by cases h) (by decide)
    (by
      intro d hd
      simp only [List.mem_cons, List.mem_singleton, List.mem_nil_iff, or_false] at hd
      rcases hd with rfl | rfl <;> exact ⟨(fun h => by cases h), (fun h => by cases h)⟩)
    (by
      intro k
      show ("2024-01-01T00:00:00.000Z" : String) ≠ ""
      decide)
  refine ⟨⟨c, hc, (hnorm (hs hstr1)).1⟩, vs, hrun, hfile (hvs ?_)⟩
  intro d hd
  simp only [List.mem_cons, List.mem_singleton, List.mem_nil_iff, or_false] at hd
  rcases hd with rfl | rfl
  · exact hstr1
  · exact hstr2

theorem lt_ceil_div_iff (totalRecords page limit : ℕ) (hl : 1 ≤ limit) :
    (page : ℤ) < ⌈(totalRecords : ℚ) / (limit : ℚ)⌉ ↔ page * limit < totalRecords := by
  have hlq : (0 : ℚ) < limit := by exact_mod_cast hl
  rw [Int.lt_ceil, Int.cast_natCast, lt_div_iff₀ hlq]
  exact_mod_cast Iff.rfl

theorem le_offset_of_totalPages_lt (totalRecords page limit : ℕ) (hl : 1 ≤ limit)
    (h : (totalRecords + limit - 1) / limit < page) :
    totalRecords ≤ (page - 1) * limit := by
  have h1 : totalRecords ≤ (totalRecords + limit - 1) / limit * limit := by
    have h0 := @Nat.lt_div_mul_add (totalRecords + limit - 1) limit hl
    omega
  have h2 : (totalRecords + limit - 1) / limit * limit ≤ (page - 1) * limit :=
    Nat.mul_le_mul_right limit (by omega)
  exact le_trans h1 h2

theorem jsMul_jsSub_of_nat (p l : ℕ) (hp1 : 1 ≤ p) (hl1 : 1 ≤ l)
    (hb : (p - 1) * l < 2 ^ 53) :
    Server.jsMul (Server.jsSub (.fin (p : ℚ)) (.fin 1)) (.fin (l : ℚ))
      = .fin (((p - 1) * l : ℕ) : ℚ) := by
  have h53 : (2 : ℕ) ^ 53 = 9007199254740992 := by norm_num
  have hsub : p - 1 ≤ 9007199254740992 := by
    have h := Nat.le_mul_of_pos_right (p - 1) hl1
    omega
  have e1 : (p : ℚ) - 1 = ((p - 1 : ℕ) : ℚ) := by
    push_cast [Nat.cast_sub hp1]
    ring
  have e2 : ((p - 1 : ℕ) : ℚ) * (l : ℚ) = (((p - 1) * l : ℕ) : ℚ) := by
    push_cast
    ring
  simp only [Server.jsSub, e1, toDouble_of_nat (p - 1) hsub, Server.jsMul, e2]
  exact toDouble_of_nat ((p - 1) * l) (by omega)

/-- C17 as stated fails: with one matching row and the limit 100 there is one page; the
page 1000000000000000000 lies beyond it and its offset, 10^20, is well above the row
count, but the query for that offset is refused and the request ends in the 500 error, not
in an empty slice. -/
theorem C17_page_beyond_last_is_an_error :
    (Server.pagination (.fin ((1 : ℕ) : ℚ)) (.fin ((1000000000000000000 : ℕ) : ℚ))
      (.fin ((100 : ℕ) : ℚ))).totalPages = .fin 1 ∧
    Server.offset (some "1000000000000000000") (some "100")
      = .fin ((100000000000000000000 : ℕ) : ℚ) ∧
    Server.selectRows
        [{ id := 1, code := "A1", genericName := "x", brandName := "Y", company := "Acme",
           launchDate := "2001-05-10T00:00:00Z" }]
        none (.fin ((100 : ℕ) : ℚ)) (.fin ((100000000000000000000 : ℕ) : ℚ)) = none ∧
    Server.getDrugs
        [{ id := 1, code := "A1", genericName := "x", brandName := "Y", company := "Acme",
           launchDate := "2001-05-10T00:00:00Z" }]
        none (some "1000000000000000000") (some "100")
      = .serverError := by
  have h := getDrugs_page_1e18
    [{ id := 1, code := "A1", genericName := "x", brandName := "Y", company := "Acme",
       launchDate := "2001-05-10T00:00:00Z" }] none
  refine ⟨?_, h.2.2.1, h.2.2.2.1, h.2.2.2.2⟩
  rw [pagination_of_nat 1 1000000000000000000 100 (by decide), ceil_div_eq 1 100 (by decide)]
  simp

/-- C17, amended: for every page >= 1, limit >= 1 and totalRecords >= 0, hasNextPage is
true exactly when page * limit < totalRecords, totalPages is the integer
(totalRecords + limit - 1) / limit, and a page greater than totalPages has
(page - 1) * limit >= totalRecords.  When moreover limit <= 100 and (page - 1) * limit is
below 2^53, that product is the offset the server computes, and for a page greater than
totalPages the slice read at that offset from any table with totalRecords matching rows is
empty. -/
theorem C17_hasNextPage_iff (totalRecords page limit : ℕ) (hp : 1 ≤ page)
    (hl : 1 ≤ limit) :
    ((Server.pagination (.fin totalRecords) (.fin page) (.fin limit)).hasNextPage = true ↔
      page * limit < totalRecords) ∧
    (Server.pagination (.fin totalRecords) (.fin page) (.fin limit)).totalPages
      = .fin (((totalRecords + limit - 1) / limit : ℕ) : ℚ) ∧
    ((totalRecords + limit - 1) / limit < page → totalRecords ≤ (page - 1) * limit) ∧
    (limit ≤ 100 → (page - 1) * limit < 2 ^ 53 →
      Server.jsMul (Server.jsSub (.fin page) (.fin 1)) (.fin limit)
        = .fin (((page - 1) * limit : ℕ) : ℚ) ∧
      ((totalRecords + limit - 1) / limit < page →
        ∀ (table : List Server.Row) (company : Option String),
          Server.countRows table company = totalRecords →
          Server.selectRows table company (.fin limit)
            (.fin (((page - 1) * limit : ℕ) : ℚ)) = some [])) := by
  have heq := pagination_of_nat totalRecords page limit hl
  refine ⟨?_, ?_, ?_, ?_⟩
  · rw [heq]
    simp only [decide_eq_true_eq]
    exact lt_ceil_div_iff totalRecords page limit hl
  · rw [heq]
    show JSNum.fin _ = JSNum.fin _
    rw [ceil_div_eq totalRecords limit hl, Int.cast_natCast]
  · exact le_offset_of_totalPages_lt totalRecords page limit hl
  · intro hl100 hb
    refine ⟨jsMul_jsSub_of_nat page limit hp hl hb, ?_⟩
    intro h table company hcount
    have hle := le_offset_of_totalPages_lt totalRecords page limit hl h
    have h1 : limit < 2 ^ 63 := by
      have : (100 : ℕ) < 2 ^ 63 := by norm_num
      omega
    have h2 : (page - 1) * limit < 2 ^ 63 := by
      have : (2 : ℕ) ^ 53 < 2 ^ 63 := by norm_num
      omega
    rw [selectRows_of_nat table company limit ((page - 1) * limit) h1 h2]
    have hlen : ((Server.matching table company).insertionSort
        (fun a b => b.launchDate ≤ a.launchDate)).length ≤ (page - 1) * limit := by
      rw [List.length_insertionSort]
      unfold Server.countRows at hcount
      omega
    rw [List.drop_eq_nil_of_le hlen, List.take_nil]

/-- Witness for C17: 45 rows, 10 per page: page 4 has a next page, page 5 has none, and
page 6, beyond the five pages, starts at offset 50. -/
theorem C17_hasNextPage_iff_witness :
    (Server.pagination (.fin ((45 : ℕ) : ℚ)) (.fin ((4 : ℕ) : ℚ))
      (.fin ((10 : ℕ) : ℚ))).hasNextPage = true ∧
    (Server.pagination (.fin ((45 : ℕ) : ℚ)) (.fin ((5 : ℕ) : ℚ))
      (.fin ((10 : ℕ) : ℚ))).hasNextPage = false ∧
    45 ≤ (6 - 1) * 10 ∧
    Server.jsMul (Server.jsSub (.fin ((6 : ℕ) : ℚ)) (.fin 1)) (.fin ((10 : ℕ) : ℚ))
      = .fin ((((6 - 1) * 10 : ℕ)) : ℚ) :=
  ⟨(C17_hasNextPage_iff 45 4 10 (by decide) (by decide)).1.2 (by decide),
    by
      have h := (C17_hasNextPage_iff 45 5 10 (by decide) (by decide)).1
      cases hv : (Server.pagination (.fin ((45 : ℕ) : ℚ)) (.fin ((5 : ℕ) : ℚ))
        (.fin ((10 : ℕ) : ℚ))).hasNextPage
      · rfl
      · exact absurd (h.1 hv) (by decide),
    (C17_hasNextPage_iff 45 6 10 (by decide) (by decide)).2.2.1 (by decide),
    ((C17_hasNextPage_iff 45 6 10 (by decide) (by decide)).2.2.2 (by decide)
      (by norm_num)).1⟩

end DrugApp
